import Mathlib

/-!
# Verification of the enkiTS task-scheduler core (`src/src/TaskScheduler.cpp`)

This file gives a shallow embedding, in Lean 4, of the scheduler core of
`TaskScheduler.cpp` and settles a list of claims about it.

Modelling conventions:

* Machine integers: `TaskSetPartition.start/end` are `uint32_t` in the source;
  they are modelled as `Nat` together with explicit reduction modulo
  `U32 = 2^32` at each arithmetic step where the C code can wrap
  (`end - start` and `start + range`).  `m_RunningCount` is an atomic
  `int32_t`; it is modelled as `Int` (none of the claims drive it anywhere
  near the 32-bit boundary).
* Pointers: an `ITaskSet*` is modelled as an index (`Nat`) into a task store
  `SchedState.tasks`; reading/writing through the pointer becomes
  `getTask` / `List.set`.
* User callbacks (`ExecuteRange`, pinned `Execute`) and memory-ordering
  annotations are recorded in an event trace `SchedState.events`; the trace
  also records enqueues and wake-ups, so properties about "which ranges were
  executed" and "when threads were woken" are statements about the trace.
* Loops (`while` in the source) become fuel-indexed recursions returning
  `Option`: `none` means the fuel ran out before the loop exited, so
  "the loop terminates" is `∃ fuel, (run fuel).isSome`.
* The pipe type `LockLessMultiReadPipe` and the pinned-task list
  `LocklessMultiWriteIntrusiveList` are declared in headers that are not part
  of this repository snapshot.  Their operations are modelled from the spec
  (see the doc comments at `pipeWriteOk`, `readBack`, `RunPinnedTasks`):
  a pipe is a bounded list, `WriterTryWriteFront` conses at the head and
  fails exactly when the pipe is full, `WriterTryReadFront` pops the head
  (LIFO for the owner), `ReaderTryReadBack` pops the last element (FIFO for
  stealers), `IsPipeEmpty` is list emptiness.
-/

namespace Enki

/-- Wrap-around bound for `uint32_t` values. -/
def U32 : Nat := 4294967296

/-- Partition `[start, end)` of a task set; `end` is a Lean keyword, hence
`endIdx`.  Corresponds to `TaskSetPartition` (uint32 fields). -/
structure TaskSetPartition where
  start : Nat
  endIdx : Nat
deriving DecidableEq, Repr

/-- One subtask in a pipe: a task reference plus a partition.  Corresponds to
`struct SubTaskSet { ITaskSet* pTask; TaskSetPartition partition; }`;
the pointer is an index into `SchedState.tasks`. -/
structure SubTaskSet where
  pTask : Nat
  partition : TaskSetPartition
deriving DecidableEq, Repr

/-- Mutable per-task fields of `ITaskSet` / `IPinnedTask`:
`m_SetSize`, `m_MinRange`, `m_RangeToRun`, `m_Priority`, `m_RunningCount`,
and (for pinned tasks) `threadNum`. -/
structure TaskData where
  setSize : Nat
  minRange : Nat
  rangeToRun : Nat
  priority : Nat
  runningCount : Int
  threadNum : Nat
deriving DecidableEq, Repr

/-- Default used for out-of-store task lookups (never reached by the claims,
which work with in-store task ids). -/
def defaultTask : TaskData :=
  { setSize := 0, minRange := 0, rangeToRun := 0, priority := 0,
    runningCount := 0, threadNum := 0 }

/-- C++11 memory-order annotation carried on trace events. -/
inductive MemOrder where
  | relaxed
  | acquire
  | release
  | seqcst
deriving DecidableEq, Repr

/-- Observable events of a scheduler run.  `execRange task s e th` records a
call `task->ExecuteRange({s, e}, th)`; `addRunning` a `fetch_add` on
`m_RunningCount`; `storeRunning` a plain/relaxed store to it; `wakeCall` an
invocation of `WakeThreads()`; `notifyAll` the conditional
`m_NewTaskEvent.notify_all()` inside it. -/
inductive Event where
  | enqueue (priority thread task start endIdx : Nat)
  | execRange (task start endIdx thread : Nat)
  | execPinned (task thread : Nat)
  | addRunning (task : Nat) (delta : Int) (ord : MemOrder)
  | storeRunning (task : Nat) (v : Int) (ord : MemOrder)
  | wakeCall
  | notifyAll
deriving DecidableEq, Repr

/-- Scheduler state: the fields of `TaskScheduler` that the embedded
functions read or write, plus the task store and the event trace.
`pipes` and `pinned` are indexed `[priority][thread]`; a pipe is a list whose
head is the front (owner side). -/
structure SchedState where
  numThreads : Nat
  numPriorities : Nat
  pipeCapacity : Nat
  pipes : List (List (List SubTaskSet))
  pinned : List (List (List Nat))
  tasks : List TaskData
  numPartitions : Nat
  numInitialPartitions : Nat
  numThreadsWaiting : Int
  numThreadsRunning : Int
  bRunning : Bool
  bHaveThreads : Bool
  events : List Event
deriving DecidableEq, Repr

/-- Pipe of a (priority, thread) slot; out-of-range lookups yield `[]`. -/
def getPipe (s : SchedState) (priority thread : Nat) : List SubTaskSet :=
  (s.pipes.getD priority []).getD thread []

/-- Replace a (priority, thread) pipe. -/
def setPipe (s : SchedState) (priority thread : Nat) (v : List SubTaskSet) :
    SchedState :=
  { s with pipes := s.pipes.set priority ((s.pipes.getD priority []).set thread v) }

/-- Pinned-task list of a (priority, thread) slot. -/
def getPinned (s : SchedState) (priority thread : Nat) : List Nat :=
  (s.pinned.getD priority []).getD thread []

/-- Replace a (priority, thread) pinned-task list. -/
def setPinned (s : SchedState) (priority thread : Nat) (v : List Nat) :
    SchedState :=
  { s with pinned := s.pinned.set priority ((s.pinned.getD priority []).set thread v) }

/-- Dereference a task pointer. -/
def getTask (s : SchedState) (taskId : Nat) : TaskData :=
  s.tasks.getD taskId defaultTask

/-- Append trace events. -/
def pushEvents (s : SchedState) (es : List Event) : SchedState :=
  { s with events := s.events ++ es }

/-- `m_RunningCount.fetch_add(delta, ord)` through a task pointer. -/
def fetchAddRunning (s : SchedState) (taskId : Nat) (delta : Int)
    (ord : MemOrder) : SchedState :=
  { s with
    tasks := s.tasks.set taskId
      { getTask s taskId with
        runningCount := (getTask s taskId).runningCount + delta },
    events := s.events ++ [.addRunning taskId delta ord] }

/-- Plain or relaxed store to `m_RunningCount` through a task pointer. -/
def setRunning (s : SchedState) (taskId : Nat) (v : Int) (ord : MemOrder) :
    SchedState :=
  { s with
    tasks := s.tasks.set taskId { getTask s taskId with runningCount := v },
    events := s.events ++ [.storeRunning taskId v ord] }

/-- Embeds `TaskScheduler::WakeThreads` (TaskScheduler.cpp:357-363): record
the invocation; `notify_all` fires only when `m_NumThreadsWaiting` is
non-zero. -/
def WakeThreads (s : SchedState) : SchedState :=
  pushEvents s ([.wakeCall] ++ if s.numThreadsWaiting ≠ 0 then [.notifyAll] else [])

/-- Embeds the anonymous-namespace helper `SplitTask` (TaskScheduler.cpp:84-96).
Returns `(splitTask, subTask')`: the carved front piece and the mutated
remainder.  `rangeLeft = end - start` is uint32 subtraction, hence the
`% U32`; likewise `start + rangeToSplit` is uint32 addition. -/
def SplitTask (subTask : SubTaskSet) (rangeToSplit : Nat) :
    SubTaskSet × SubTaskSet :=
  let rangeLeft := (subTask.partition.endIdx + U32 - subTask.partition.start) % U32
  let r := if rangeToSplit > rangeLeft then rangeLeft else rangeToSplit
  let splitEnd := (subTask.partition.start + r) % U32
  ( { subTask with partition := { start := subTask.partition.start, endIdx := splitEnd } },
    { subTask with partition := { start := splitEnd, endIdx := subTask.partition.endIdx } } )

/-- Loop-local state of `TaskScheduler::SplitAndAddTask`: the remaining
subtask (`subTask_`, mutated by `SplitTask`) and `numAdded`. -/
structure SAAcc where
  sub : SubTaskSet
  numAdded : Int
deriving DecidableEq, Repr

/-- Modelled from the spec: `LockLessMultiReadPipe::WriterTryWriteFront`
(header not in this snapshot) "Fails when full" (§4.1); capacity is
`2^PIPESIZE_LOG2`. -/
def pipeWriteOk (s : SchedState) (pipe : List SubTaskSet) : Prop :=
  pipe.length < s.pipeCapacity

instance (s : SchedState) (pipe : List SubTaskSet) :
    Decidable (pipeWriteOk s pipe) := by
  unfold pipeWriteOk; infer_instance

/-- One iteration of the `while` loop in `TaskScheduler::SplitAndAddTask`
(TaskScheduler.cpp:365-394): carve a piece with `SplitTask`, bump
`numAdded` and `m_RunningCount` (acquire), try `WriterTryWriteFront`; on
failure wake threads when `numAdded > 1`, reset `numAdded`, trim the piece
to `m_RangeToRun` when `m_RangeToRun < rangeToSplit_` (returning the rest to
`subTask_`), execute the piece inline and `fetch_sub` the count (release). -/
def splitAndAddStep (threadNum rangeToSplit : Nat) (s : SchedState)
    (acc : SAAcc) : SchedState × SAAcc :=
  let pr := SplitTask acc.sub rangeToSplit
  let taskToAdd := pr.1
  let subRem := pr.2
  let numAdded := acc.numAdded + 1
  let s1 := fetchAddRunning s acc.sub.pTask 1 .acquire
  let prio := (getTask s1 acc.sub.pTask).priority
  let pipe := getPipe s1 prio threadNum
  if pipeWriteOk s1 pipe then
    let s2 := pushEvents (setPipe s1 prio threadNum (taskToAdd :: pipe))
      [.enqueue prio threadNum taskToAdd.pTask taskToAdd.partition.start
        taskToAdd.partition.endIdx]
    (s2, { sub := subRem, numAdded := numAdded })
  else
    let s2 := if numAdded > 1 then WakeThreads s1 else s1
    let rtr := (getTask s2 acc.sub.pTask).rangeToRun
    let pieceRem :=
      if rtr < rangeToSplit then
        let e := (taskToAdd.partition.start + rtr) % U32
        ( { taskToAdd with partition := { start := taskToAdd.partition.start, endIdx := e } },
          { subRem with partition := { start := e, endIdx := subRem.partition.endIdx } } )
      else (taskToAdd, subRem)
    let s3 := pushEvents s2
      [.execRange pieceRem.1.pTask pieceRem.1.partition.start
        pieceRem.1.partition.endIdx threadNum]
    let s4 := fetchAddRunning s3 acc.sub.pTask (-1) .release
    (s4, { sub := pieceRem.2, numAdded := 0 })

/-- The `while( subTask_.partition.start != subTask_.partition.end )` loop of
`TaskScheduler::SplitAndAddTask`, fuel-indexed; on exit the trailing
`WakeThreads()` (TaskScheduler.cpp:393) runs.  `none` = fuel exhausted. -/
def splitAndAddLoop (threadNum rangeToSplit : Nat) (fuel : Nat)
    (s : SchedState) (acc : SAAcc) : Option SchedState :=
  if acc.sub.partition.start = acc.sub.partition.endIdx then
    some (WakeThreads s)
  else
    match fuel with
    | 0 => none
    | fuel' + 1 =>
      let p := splitAndAddStep threadNum rangeToSplit s acc
      splitAndAddLoop threadNum rangeToSplit fuel' p.1 p.2

/-- Embeds `TaskScheduler::SplitAndAddTask` (TaskScheduler.cpp:365-394). -/
def SplitAndAddTask (fuel threadNum : Nat) (subTask : SubTaskSet)
    (rangeToSplit : Nat) (s : SchedState) : Option SchedState :=
  splitAndAddLoop threadNum rangeToSplit fuel s { sub := subTask, numAdded := 0 }

/-- The fine split size computed by `TaskScheduler::AddTaskSetToPipe`
(TaskScheduler.cpp:401-402): `m_SetSize / m_NumPartitions`, floored at
`m_MinRange`. -/
def rangeToRunOf (s : SchedState) (t : TaskData) : Nat :=
  let r := t.setSize / s.numPartitions
  if r < t.minRange then t.minRange else r

/-- The coarse enqueue chunk computed by `TaskScheduler::AddTaskSetToPipe`
(TaskScheduler.cpp:404-405): `m_SetSize / m_NumInitialPartitions`, floored at
`m_MinRange`. -/
def rangeToSplitOf (s : SchedState) (t : TaskData) : Nat :=
  let r := t.setSize / s.numInitialPartitions
  if r < t.minRange then t.minRange else r

/-- Embeds `TaskScheduler::AddTaskSetToPipe` (TaskScheduler.cpp:396-412):
store 0 to `m_RunningCount` (relaxed), set `m_RangeToRun`, compute the coarse
chunk, build the whole-range subtask and call `SplitAndAddTask` on the
submitting thread (`gtl_threadNum`). -/
def AddTaskSetToPipe (fuel gtlThreadNum taskId : Nat) (s : SchedState) :
    Option SchedState :=
  let t := getTask s taskId
  let s1 := setRunning s taskId 0 .relaxed
  let s2 := { s1 with
    tasks := s1.tasks.set taskId
      { getTask s1 taskId with rangeToRun := rangeToRunOf s t } }
  let subTask : SubTaskSet :=
    { pTask := taskId, partition := { start := 0, endIdx := t.setSize } }
  SplitAndAddTask fuel gtlThreadNum subTask (rangeToSplitOf s t) s2

/-- Modelled from the spec: `LockLessMultiReadPipe::ReaderTryReadBack`
(header not in this snapshot) consumes the oldest element (§4.1); with the
head of the list as the pipe front, the oldest element is the last one.
Returns the element and the remaining pipe. -/
def readBack {α : Type} (l : List α) : Option (α × List α) :=
  match l.getLast? with
  | none => none
  | some x => some (x, l.dropLast)

/-- Pinned-task drain of `TaskScheduler::RunPinnedTasks(threadNum, priority)`
(TaskScheduler.cpp:430-442): execute each task and store 0 to its
`m_RunningCount`. -/
def runPinnedExec (threadNum : Nat) (s : SchedState) (ids : List Nat) :
    SchedState :=
  ids.foldl (fun st id => setRunning (pushEvents st [.execPinned id threadNum]) id 0 .seqcst) s

/-- Embeds `TaskScheduler::RunPinnedTasks(threadNum, priority)`
(TaskScheduler.cpp:430-442).  Modelled from the spec for the list type
(§4.2, header not in this snapshot): the intrusive list is a LIFO pushed at
the head, so `ReaderReadBack` drains it oldest-first; sequentially the
`do/while` empties the whole list. -/
def RunPinnedTasks (s : SchedState) (threadNum priority : Nat) : SchedState :=
  runPinnedExec threadNum (setPinned s priority threadNum [])
    ((getPinned s priority threadNum).reverse)

/-- The trace emitted by draining a pinned list: per task an `Execute` call
followed by the store of 0 to its `m_RunningCount`. -/
def pinnedDrainTrace (th : Nat) (ids : List Nat) : List Event :=
  ids.flatMap (fun id => [Event.execPinned id th, Event.storeRunning id 0 .seqcst])

/-- `ExecuteRange` followed by the release `fetch_sub` on `m_RunningCount`
(TaskScheduler.cpp:301-302 and 308-309). -/
def execDec (s : SchedState) (sub : SubTaskSet) (threadNum : Nat) : SchedState :=
  fetchAddRunning
    (pushEvents s [.execRange sub.pTask sub.partition.start sub.partition.endIdx threadNum])
    sub.pTask (-1) .release

/-- The `if( bHaveTask )` body of single-priority `TaskScheduler::TryRunTask`
(TaskScheduler.cpp:291-311), after the hint update: split off a head piece
and re-enqueue the rest when `m_RangeToRun < partitionSize`, then execute and
decrement. -/
def finishTask (fuel : Nat) (s : SchedState) (threadNum hintVal : Nat)
    (sub : SubTaskSet) : Option (Bool × Nat × SchedState) :=
  let partitionSize := (sub.partition.endIdx + U32 - sub.partition.start) % U32
  if (getTask s sub.pTask).rangeToRun < partitionSize then
    let pr := SplitTask sub (getTask s sub.pTask).rangeToRun
    match SplitAndAddTask fuel threadNum pr.2 (getTask s sub.pTask).rangeToRun s with
    | none => none
    | some s2 => some (true, hintVal, execDec s2 pr.1 threadNum)
  else
    some (true, hintVal, execDec s sub threadNum)

/-- The steal loop of single-priority `TaskScheduler::TryRunTask`
(TaskScheduler.cpp:279-289): probe pipes at `(hint + checkCount) % numThreads`
for `checkCount = 0, 1, ...`, skipping `threadNum`, stopping at the first
successful `ReaderTryReadBack`.  `ks` is instantiated with
`List.range numThreads`. -/
def probePipes (s : SchedState) (priority threadNum hint : Nat) :
    List Nat → Option (SubTaskSet × Nat × SchedState)
  | [] => none
  | k :: ks =>
    let t := (hint + k) % s.numThreads
    if t ≠ threadNum then
      match readBack (getPipe s priority t) with
      | some xr => some (xr.1, t, setPipe s priority t xr.2)
      | none => probePipes s priority threadNum hint ks
    else probePipes s priority threadNum hint ks

/-- Embeds single-priority `TaskScheduler::TryRunTask`
(TaskScheduler.cpp:270-315): drain this worker's pinned tasks, try
`WriterTryReadFront` on the own pipe (pop the head), otherwise steal via
`probePipes`; on success the hint becomes `threadToCheck` (which is the
incoming hint when the own pipe served).  Returns
`(bHaveTask, hint', state)`; `none` = inner fuel exhausted. -/
def TryRunTaskPrio (fuel : Nat) (s : SchedState) (threadNum priority hint : Nat) :
    Option (Bool × Nat × SchedState) :=
  let s0 := RunPinnedTasks s threadNum priority
  match getPipe s0 priority threadNum with
  | sub :: rest => finishTask fuel (setPipe s0 priority threadNum rest) threadNum hint sub
  | [] =>
    match probePipes s0 priority threadNum hint (List.range s0.numThreads) with
    | some xts => finishTask fuel xts.2.2 threadNum xts.2.1 xts.1
    | none => some (false, hint, s0)

/-- The ascending-priority loop of all-priorities `TaskScheduler::TryRunTask`
(TaskScheduler.cpp:258-268); `ps` is instantiated with
`List.range numPriorities`, and the hint reference is threaded through
failed attempts. -/
def tryRunTaskPrios (fuel threadNum : Nat) :
    List Nat → Nat → SchedState → Option (Bool × Nat × SchedState)
  | [], hint, s => some (false, hint, s)
  | p :: ps, hint, s =>
    match TryRunTaskPrio fuel s threadNum p hint with
    | none => none
    | some (true, h', s') => some (true, h', s')
    | some (false, h', s') => tryRunTaskPrios fuel threadNum ps h' s'

/-- Embeds all-priorities `TaskScheduler::TryRunTask`
(TaskScheduler.cpp:258-268). -/
def TryRunTaskAll (fuel : Nat) (s : SchedState) (threadNum hint : Nat) :
    Option (Bool × Nat × SchedState) :=
  tryRunTaskPrios fuel threadNum (List.range s.numPriorities) hint s

/-- Embeds `TaskScheduler::HaveTasks` (TaskScheduler.cpp:317-334): scan all
pipes at every priority, and this thread's pinned list at every priority.
`IsPipeEmpty`/`IsListEmpty` are modelled from the spec as list emptiness. -/
def HaveTasks (s : SchedState) (threadNum : Nat) : Bool :=
  (List.range s.numPriorities).any (fun priority =>
    (List.range s.numThreads).any (fun thread => !(getPipe s priority thread).isEmpty) ||
    !(getPinned s priority threadNum).isEmpty)

/-- The `while( bHaveTasks || m_NumThreadsWaiting < numThreadsRunning )` loop
of `TaskScheduler::WaitforAll` (TaskScheduler.cpp:477-480), fuel-indexed.
`results` accumulates, one entry per loop iteration, the value returned by
that iteration's `TryRunTask` call. -/
def WaitforAllLoop (fuelInner threadNum : Nat) (numThreadsRunning : Int) :
    Nat → SchedState → Nat → Bool → List Bool → Option (SchedState × List Bool)
  | fuel, s, hint, bHaveTasks, results =>
    if bHaveTasks || decide (s.numThreadsWaiting < numThreadsRunning) then
      match fuel with
      | 0 => none
      | fuel' + 1 =>
        match TryRunTaskAll fuelInner s threadNum hint with
        | none => none
        | some (b, h', s') =>
          WaitforAllLoop fuelInner threadNum numThreadsRunning fuel' s' h' b
            (results ++ [b])
    else some (s, results)

/-- Embeds `TaskScheduler::WaitforAll` (TaskScheduler.cpp:472-481):
`numThreadsRunning` is snapshotted once (minus one for the caller), the hint
starts at `gtl_threadNum + 1`, `bHaveTasks` starts `true`. -/
def WaitforAll (fuel fuelInner : Nat) (s : SchedState) (gtlThreadNum : Nat) :
    Option (SchedState × List Bool) :=
  WaitforAllLoop fuelInner gtlThreadNum (s.numThreadsRunning - 1) fuel s
    (gtlThreadNum + 1) true []

/-- The partition-shaping block of `TaskScheduler::StartThreads`
(TaskScheduler.cpp:202-215): returns
`(m_NumPartitions, m_NumInitialPartitions)`. -/
def startThreadsShape (numThreads : Nat) : Nat × Nat :=
  if numThreads = 1 then (1, 1)
  else
    let nip := numThreads - 1
    (numThreads * (numThreads - 1), if nip > 8 then 8 else nip)

/-- Embeds `TaskScheduler::StartThreads` (TaskScheduler.cpp:170-218):
allocate fresh pipes and pinned lists, account all threads as running, set
the shaping parameters.  Thread spawning itself is outside the sequential
model. -/
def StartThreads (s : SchedState) : SchedState :=
  if s.bHaveThreads then s
  else
    { s with
      pipes := List.replicate s.numPriorities (List.replicate s.numThreads []),
      pinned := List.replicate s.numPriorities (List.replicate s.numThreads []),
      numThreadsRunning := Int.ofNat s.numThreads,
      bRunning := true,
      numPartitions := (startThreadsShape s.numThreads).1,
      numInitialPartitions := (startThreadsShape s.numThreads).2,
      bHaveThreads := true }

/-- Embeds `TaskScheduler::StopThreads(true)` (TaskScheduler.cpp:220-256):
reset counters and release the pipe/pinned storage. -/
def StopThreads (s : SchedState) : SchedState :=
  if s.bHaveThreads then
    { s with bRunning := false, numThreads := 0, bHaveThreads := false,
             numThreadsWaiting := 0, numThreadsRunning := 0,
             pipes := [], pinned := [] }
  else s

/-- Embeds `TaskScheduler::Initialize(numThreads_)`
(TaskScheduler.cpp:514-522).  The `assert( numThreads_ )` on entry is the
only precondition check in the function; an assertion failure (halt) is
modelled as `none`. -/
def InitializeSched (numThreads : Nat) (s : SchedState) : Option SchedState :=
  if numThreads = 0 then none
  else some (StartThreads { StopThreads s with numThreads := numThreads })

/-- Embeds `TaskScheduler::AddPinnedTask` (TaskScheduler.cpp:414-419): set
`m_RunningCount = 1`, `WriterWriteFront` onto the pinned list of
`[m_Priority][threadNum]` (an out-of-range `threadNum` is not checked in the
source; the model's `List.set` leaves the state's lists unchanged there), and
wake threads. -/
def AddPinnedTask (s : SchedState) (taskId : Nat) : SchedState :=
  let s1 := setRunning s taskId 1 .seqcst
  let t := getTask s1 taskId
  WakeThreads
    (setPinned s1 t.priority t.threadNum (taskId :: getPinned s1 t.priority t.threadNum))

/-- `SplitAndAddTask` terminates on these arguments: some fuel suffices. -/
def SATerminates (threadNum : Nat) (subTask : SubTaskSet) (rangeToSplit : Nat)
    (s : SchedState) : Prop :=
  ∃ fuel, (SplitAndAddTask fuel threadNum subTask rangeToSplit s).isSome

/-- Follows the spec's words (§4.3 step 3): the first peer index among
`(hint + k) % num_threads`, `k` ascending from 0, skipping the worker
itself, whose pipe at this priority is non-empty.  Spec-side definition used
to characterise the source's steal loop. -/
def specFirstPeer (s : SchedState) (priority threadNum hint : Nat) : Option Nat :=
  (((List.range s.numThreads).map (fun k => (hint + k) % s.numThreads)).filter
    (fun t => t ≠ threadNum && !(getPipe s priority t).isEmpty)).head?

/-! ## Interleaving model of the waiter / wake-up protocol (claim C3)

`TaskScheduler::WaitForTasks` (TaskScheduler.cpp:336-355) and the producer
side (enqueue in `SplitAndAddTask` followed by `WakeThreads`,
TaskScheduler.cpp:375-393) run on different threads.  The model below makes
each thread a small program over a shared state and lets an explicit
schedule interleave their atomic steps; `std::condition_variable` semantics
are standard C++ (a `notify_all` wakes only the threads currently blocked in
`wait`; it is not remembered).  The `HaveTasks` scan is abstracted to
`pipeCount > 0`.  This is a sequentially-consistent interleaving model: any
behaviour it exhibits is an allowed behaviour of the C++ program. -/

/-- Program counter of the waiting worker inside `WaitForTasks`:
increment `m_NumThreadsWaiting` (line 343), check `HaveTasks` (line 345),
block on the event (line 350), wake up, decrement (line 354). -/
inductive WaiterPC where
  | atInc
  | atCheck
  | atWait
  | blockedPC
  | atDec
  | doneW
deriving DecidableEq, Repr

/-- Program counter of the producing worker: publish a subtask into a pipe
(line 375), then `WakeThreads` (lines 357-363). -/
inductive ProducerPC where
  | atEnqueue
  | atWake
  | doneP
deriving DecidableEq, Repr

/-- Shared state of the two-thread wake-protocol model. -/
structure WakeState where
  pipeCount : Nat
  waiting : Nat
  blocked : Bool
  wpc : WaiterPC
  ppc : ProducerPC
deriving DecidableEq, Repr

/-- One atomic step of the waiter (`WaitForTasks`).  A blocked waiter can
move only when `blocked` has been cleared by a notify. -/
def waiterStep (st : WakeState) : WakeState :=
  match st.wpc with
  | .atInc => { st with waiting := st.waiting + 1, wpc := .atCheck }
  | .atCheck =>
    if st.pipeCount > 0 then { st with wpc := .atDec } else { st with wpc := .atWait }
  | .atWait => { st with blocked := true, wpc := .blockedPC }
  | .blockedPC => if st.blocked then st else { st with wpc := .atDec }
  | .atDec => { st with waiting := st.waiting - 1, wpc := .doneW }
  | .doneW => st

/-- One atomic step of the producer: enqueue, then `WakeThreads`
(`notify_all` clears `blocked` only for a waiter already blocked; with no
blocked waiter the notification is lost). -/
def producerStep (st : WakeState) : WakeState :=
  match st.ppc with
  | .atEnqueue => { st with pipeCount := st.pipeCount + 1, ppc := .atWake }
  | .atWake =>
    if st.waiting > 0 then { st with blocked := false, ppc := .doneP }
    else { st with ppc := .doneP }
  | .doneP => st

/-- Run a schedule: `true` steps the producer, `false` steps the waiter. -/
def runSchedule (st : WakeState) : List Bool → WakeState
  | [] => st
  | c :: cs => runSchedule (if c then producerStep st else waiterStep st) cs

/-- Initial state: nothing enqueued, nobody waiting, waiter about to enter
`WaitForTasks`, producer about to enqueue. -/
def wakeInit : WakeState :=
  { pipeCount := 0, waiting := 0, blocked := false, wpc := .atInc, ppc := .atEnqueue }

/-- The schedule exhibiting the lost wake-up: the waiter increments and finds
no work; the producer then enqueues and fires `notify_all` (the waiter is
not yet blocked, so the notification is lost); the waiter then blocks. -/
def lostWakeSchedule : List Bool := [false, false, true, true, false]

/-- Final state of the lost wake-up schedule. -/
def lostWakeFinal : WakeState := runSchedule wakeInit lostWakeSchedule

/-! ## Concrete states used by counterexamples, failing inputs and witnesses -/

/-- Filler subtask used to pre-fill pipes (never consumed in the scenarios). -/
def dummySub : SubTaskSet := { pTask := 77, partition := { start := 0, endIdx := 1 } }

/-- C1 failing input, the task: `set_size = 100`, `min_range = 1`.  With
`m_NumPartitions = 12` and `m_NumInitialPartitions = 3` (a 4-thread
scheduler) this gives `m_RangeToRun = 8` and coarse chunk 33. -/
def c1Task : TaskData :=
  { setSize := 100, minRange := 1, rangeToRun := 0, priority := 0,
    runningCount := 0, threadNum := 0 }

/-- C1 failing input, the scheduler: 4 threads, the submitting thread's
priority-0 pipe already holds 253 of its 256 slots, so the 4th coarse piece's
`WriterTryWriteFront` fails. -/
def c1State : SchedState :=
  { numThreads := 4, numPriorities := 1, pipeCapacity := 256,
    pipes := [[List.replicate 253 dummySub, [], [], []]],
    pinned := [[[], [], [], []]],
    tasks := [c1Task],
    numPartitions := 12, numInitialPartitions := 3,
    numThreadsWaiting := 0, numThreadsRunning := 4,
    bRunning := true, bHaveThreads := true, events := [] }

/-- The state `AddTaskSetToPipe` hands to `SplitAndAddTask` on the C1 input
(`m_RunningCount := 0`, `m_RangeToRun := 8`). -/
def c1Setup : SchedState :=
  { c1State with
    tasks := [{ c1Task with rangeToRun := 8 }],
    events := [Event.storeRunning 0 0 .relaxed] }

/-- Initial loop-local state on the C1 input: whole range `[0, 100)`. -/
def c1Acc : SAAcc :=
  { sub := { pTask := 0, partition := { start := 0, endIdx := 100 } }, numAdded := 0 }

/-- The C1 run after `n` iterations of the `SplitAndAddTask` loop body. -/
def c1Steps (n : Nat) : SchedState × SAAcc :=
  (fun pr => splitAndAddStep 0 33 pr.1 pr.2)^[n] (c1Setup, c1Acc)

/-- The C1 run after 4 loop iterations (3 successful enqueues, then the
failed write with the faulty trim). -/
def c1Mid : SchedState × SAAcc := c1Steps 4

/-- C10 input state: `m_RangeToRun = 0` (as `AddTaskSetToPipe` computes for
`min_range = 0`, `set_size = 6 < m_NumPartitions = 12`) and a full pipe. -/
def c10State : SchedState :=
  { numThreads := 4, numPriorities := 1, pipeCapacity := 256,
    pipes := [[List.replicate 256 dummySub, [], [], []]],
    pinned := [[[], [], [], []]],
    tasks := [{ setSize := 6, minRange := 0, rangeToRun := 0, priority := 0,
                runningCount := 0, threadNum := 0 }],
    numPartitions := 12, numInitialPartitions := 3,
    numThreadsWaiting := 0, numThreadsRunning := 4,
    bRunning := true, bHaveThreads := true, events := [] }

/-- C10 subtask: the non-empty range `[0, 6)`. -/
def c10Sub : SubTaskSet := { pTask := 0, partition := { start := 0, endIdx := 6 } }

/-- C10 witness state for the terminating case: `m_RangeToRun = 5 ≥ chunk`. -/
def w10State : SchedState :=
  { c10State with
    tasks := [{ setSize := 6, minRange := 0, rangeToRun := 5, priority := 0,
                runningCount := 0, threadNum := 0 }] }

/-- Recogniser for enqueue events. -/
def isEnqueueEvt : Event → Bool
  | .enqueue _ _ _ _ _ => true
  | _ => false

/-- C2 counterexample state: 2 threads, the submitter's pipe holds 255 of 256
slots, the task splits into two coarse pieces of 33 (`m_RangeToRun = 33`,
so no trim).  The first piece enqueues; the second write fails. -/
def c2State : SchedState :=
  { numThreads := 2, numPriorities := 1, pipeCapacity := 256,
    pipes := [[List.replicate 255 dummySub, []]],
    pinned := [[[], []]],
    tasks := [{ setSize := 66, minRange := 33, rangeToRun := 33, priority := 0,
                runningCount := 0, threadNum := 0 }],
    numPartitions := 2, numInitialPartitions := 2,
    numThreadsWaiting := 0, numThreadsRunning := 2,
    bRunning := true, bHaveThreads := true, events := [] }

/-- C2 counterexample subtask: the whole range `[0, 66)`. -/
def c2Sub : SubTaskSet := { pTask := 0, partition := { start := 0, endIdx := 66 } }

/-- The event trace of the C2 counterexample run: one successful enqueue,
then `WakeThreads` fires on the failed write (index 3, before the inline
`ExecuteRange`), although only one piece had been enqueued since the last
failure. -/
def c2Trace : List Event :=
  [ .addRunning 0 1 .acquire,
    .enqueue 0 0 0 0 33,
    .addRunning 0 1 .acquire,
    .wakeCall,
    .execRange 0 33 66 0,
    .addRunning 0 (-1) .release,
    .wakeCall ]

/-- C2 amended-claim witness state: capacity-2 pipe already full,
`m_RangeToRun = 4`, two waiting threads (so the notify also fires). -/
def c2wState : SchedState :=
  { numThreads := 1, numPriorities := 1, pipeCapacity := 2,
    pipes := [[List.replicate 2 dummySub]],
    pinned := [[[]]],
    tasks := [{ setSize := 20, minRange := 1, rangeToRun := 4, priority := 0,
                runningCount := 3, threadNum := 0 }],
    numPartitions := 1, numInitialPartitions := 1,
    numThreadsWaiting := 2, numThreadsRunning := 1,
    bRunning := true, bHaveThreads := true, events := [] }

/-- C2 amended-claim witness loop-local state: remaining range `[5, 20)`,
one piece already enqueued since the last failure. -/
def c2wAcc : SAAcc :=
  { sub := { pTask := 0, partition := { start := 5, endIdx := 20 } }, numAdded := 1 }

/-- C9 counterexample task: `m_RangeToRun = 5` covers the whole partition. -/
def c9Task : TaskData :=
  { setSize := 5, minRange := 1, rangeToRun := 5, priority := 0,
    runningCount := 1, threadNum := 0 }

/-- C9 counterexample state: thread 0's own pipe holds one subtask, the steal
hint is 1 (pointing at the other thread). -/
def c9State : SchedState :=
  { numThreads := 2, numPriorities := 1, pipeCapacity := 4,
    pipes := [[[{ pTask := 0, partition := { start := 0, endIdx := 5 } }], []]],
    pinned := [[[], []]],
    tasks := [c9Task],
    numPartitions := 2, numInitialPartitions := 1,
    numThreadsWaiting := 0, numThreadsRunning := 2,
    bRunning := true, bHaveThreads := true, events := [] }

/-- C9 post state: the own pipe (index 0) served the task, yet the hint
stayed 1. -/
def c9Post : SchedState :=
  { c9State with
    pipes := [[[], []]],
    tasks := [{ c9Task with runningCount := 0 }],
    events := [Event.execRange 0 0 5 0, Event.addRunning 0 (-1) .release] }

/-- C6 task: a pinned task whose `threadNum = 5` is out of range for a
2-thread scheduler. -/
def c6Task : TaskData :=
  { setSize := 0, minRange := 0, rangeToRun := 0, priority := 0,
    runningCount := 0, threadNum := 5 }

/-- C6 counterexample scheduler: 2 threads. -/
def c6State : SchedState :=
  { numThreads := 2, numPriorities := 1, pipeCapacity := 4,
    pipes := [[[], []]],
    pinned := [[[], []]],
    tasks := [c6Task],
    numPartitions := 2, numInitialPartitions := 1,
    numThreadsWaiting := 0, numThreadsRunning := 2,
    bRunning := true, bHaveThreads := true, events := [] }

/-- C6 reuse input: the same task with `m_RunningCount = 7` still
outstanding. -/
def c6ReuseState : SchedState :=
  { c6State with tasks := [{ c6Task with runningCount := 7 }] }

/-- C4 witness scheduler: quiescent single-thread scheduler. -/
def c4State : SchedState :=
  { numThreads := 1, numPriorities := 1, pipeCapacity := 4,
    pipes := [[[]]],
    pinned := [[[]]],
    tasks := [],
    numPartitions := 1, numInitialPartitions := 1,
    numThreadsWaiting := 0, numThreadsRunning := 1,
    bRunning := true, bHaveThreads := true, events := [] }

/-- C5 witness scheduler: one task of `set_size = 10`, `min_range = 3`,
`m_NumPartitions = 4`, `m_NumInitialPartitions = 2`, empty pipe. -/
def c5State : SchedState :=
  { numThreads := 1, numPriorities := 1, pipeCapacity := 4,
    pipes := [[[]]],
    pinned := [[[]]],
    tasks := [{ setSize := 10, minRange := 3, rangeToRun := 0, priority := 0,
                runningCount := 0, threadNum := 0 }],
    numPartitions := 4, numInitialPartitions := 2,
    numThreadsWaiting := 0, numThreadsRunning := 1,
    bRunning := true, bHaveThreads := true, events := [] }

/-- Post state of `AddTaskSetToPipe` on `c5State`: two coarse pieces of 5
enqueued, `m_RangeToRun = 3`. -/
def c5Post : SchedState :=
  { c5State with
    pipes := [[[{ pTask := 0, partition := { start := 5, endIdx := 10 } },
                { pTask := 0, partition := { start := 0, endIdx := 5 } }]]],
    tasks := [{ setSize := 10, minRange := 3, rangeToRun := 3, priority := 0,
                runningCount := 2, threadNum := 0 }],
    events := [.storeRunning 0 0 .relaxed, .addRunning 0 1 .acquire,
               .enqueue 0 0 0 0 5, .addRunning 0 1 .acquire,
               .enqueue 0 0 0 5 10, .wakeCall] }

/-- C8 witness scheduler: one task of `set_size = 0`, one thread waiting (so
the final `WakeThreads` also notifies). -/
def c8State : SchedState :=
  { numThreads := 1, numPriorities := 1, pipeCapacity := 4,
    pipes := [[[]]],
    pinned := [[[]]],
    tasks := [{ setSize := 0, minRange := 2, rangeToRun := 9, priority := 0,
                runningCount := 5, threadNum := 0 }],
    numPartitions := 3, numInitialPartitions := 2,
    numThreadsWaiting := 1, numThreadsRunning := 1,
    bRunning := true, bHaveThreads := true, events := [] }

/-- Post state of `AddTaskSetToPipe` on `c8State`: only the store of 0 and
the wake-up happened. -/
def c8Post : SchedState :=
  { c8State with
    tasks := [{ setSize := 0, minRange := 2, rangeToRun := 2, priority := 0,
                runningCount := 0, threadNum := 0 }],
    events := [.storeRunning 0 0 .relaxed, .wakeCall, .notifyAll] }

/-- C7 witness scheduler for the ascending-priorities conjunct: priority 0
entirely empty, priority 1 has work in the caller's own pipe. -/
def c7State : SchedState :=
  { numThreads := 2, numPriorities := 2, pipeCapacity := 4,
    pipes := [[[], []], [[{ pTask := 0, partition := { start := 0, endIdx := 3 } }], []]],
    pinned := [[[], []], [[], []]],
    tasks := [{ setSize := 3, minRange := 1, rangeToRun := 3, priority := 1,
                runningCount := 1, threadNum := 0 }],
    numPartitions := 2, numInitialPartitions := 1,
    numThreadsWaiting := 0, numThreadsRunning := 2,
    bRunning := true, bHaveThreads := true, events := [] }

/-- C7 witness scheduler for the single-priority conjunct: own pipe empty,
the peer's pipe (index 1) has one subtask. -/
def c7bState : SchedState :=
  { numThreads := 2, numPriorities := 1, pipeCapacity := 4,
    pipes := [[[], [{ pTask := 0, partition := { start := 0, endIdx := 2 } }]]],
    pinned := [[[], []]],
    tasks := [{ setSize := 2, minRange := 1, rangeToRun := 2, priority := 0,
                runningCount := 1, threadNum := 0 }],
    numPartitions := 2, numInitialPartitions := 1,
    numThreadsWaiting := 0, numThreadsRunning := 2,
    bRunning := true, bHaveThreads := true, events := [] }

/-- Post state of the dispatch attempt on `c7bState`: the peer's pipe was
drained and its subtask executed. -/
def c7bPost : SchedState :=
  { c7bState with
    pipes := [[[], []]],
    tasks := [{ setSize := 2, minRange := 1, rangeToRun := 2, priority := 0,
                runningCount := 0, threadNum := 0 }],
    events := [Event.execRange 0 0 2 0, Event.addRunning 0 (-1) .release] }

/-- `s'` extends the event trace of `s`: the program only ever appends. -/
def eventsExt (s s' : SchedState) : Prop :=
  ∃ rest, s'.events = s.events ++ rest

/-- The scheduler scalars that the dispatch/partition code never mutates;
used to state frame lemmas compactly. -/
def scalars (s : SchedState) : Nat × Nat × Nat × Nat × Nat × Int × Int :=
  (s.numThreads, s.numPriorities, s.pipeCapacity, s.numPartitions,
   s.numInitialPartitions, s.numThreadsWaiting, s.numThreadsRunning)

/-- The task fields other than `m_RunningCount`; the partition/dispatch loops
never change them. -/
def taskShape (t : TaskData) : Nat × Nat × Nat × Nat × Nat :=
  (t.setSize, t.minRange, t.rangeToRun, t.priority, t.threadNum)

/-! ## Helper lemmas: lists and uint32 arithmetic -/

theorem listGetD_set {α : Type} :
    ∀ (l : List α) (i : Nat) (v d : α),
      (l.set i v).getD i d = if i < l.length then v else d
  | [], i, v, d => by simp
  | _ :: _, 0, v, d => by simp
  | a :: l, i + 1, v, d => by
    simpa [Nat.succ_lt_succ_iff] using listGetD_set l i v d

theorem listGetD_set_ne {α : Type} :
    ∀ (l : List α) (i j : Nat) (v d : α), i ≠ j →
      (l.set i v).getD j d = l.getD j d
  | [], _, _, _, _, _ => by simp
  | _ :: _, 0, 0, _, _, h => absurd rfl h
  | _ :: _, 0, _ + 1, _, _, _ => by simp
  | _ :: _, _ + 1, 0, _, _, _ => by simp
  | a :: l, i + 1, j + 1, v, d, h => by
    simpa using listGetD_set_ne l i j v d (by omega)

theorem listSet_getD_self {α : Type} :
    ∀ (l : List α) (i : Nat) (d : α), l.set i (l.getD i d) = l
  | [], _, _ => rfl
  | _ :: _, 0, _ => rfl
  | a :: l, i + 1, d => by simpa using listSet_getD_self l i d

theorem listSet_ge {α : Type} :
    ∀ (l : List α) (i : Nat) (v : α), l.length ≤ i → l.set i v = l
  | [], _, _, _ => rfl
  | a :: l, 0, v, h => by simp at h
  | a :: l, i + 1, v, h => by
    simpa using listSet_ge l i v (by simpa using h)

theorem u32_mod_sub {a b : Nat} (h1 : a ≤ b) (h2 : b < U32) :
    (b + U32 - a) % U32 = b - a := by
  have h3 : b + U32 - a = (b - a) + U32 := by omega
  rw [h3, Nat.add_mod_right, Nat.mod_eq_of_lt (by omega)]

theorem u32_mod_id {a : Nat} (h : a < U32) : a % U32 = a :=
  Nat.mod_eq_of_lt h

/-- Every residue is hit by the steal probe `(hint + k) % n`, `k < n`. -/
theorem mod_shift_surj (n hint t : Nat) (hn : 0 < n) (ht : t < n) :
    ∃ k, k < n ∧ (hint + k) % n = t := by
  have hdm := Nat.div_add_mod hint n
  have hh : hint % n < n := Nat.mod_lt _ hn
  rcases Nat.lt_or_ge t (hint % n) with hlt | hge
  · refine ⟨t + n - hint % n, by omega, ?_⟩
    rw [Nat.add_mod, Nat.mod_eq_of_lt (show t + n - hint % n < n by omega)]
    have h4 : hint % n + (t + n - hint % n) = t + n := by omega
    rw [h4, Nat.add_mod_right, Nat.mod_eq_of_lt ht]
  · refine ⟨t - hint % n, by omega, ?_⟩
    rw [Nat.add_mod, Nat.mod_eq_of_lt (show t - hint % n < n by omega)]
    have h4 : hint % n + (t - hint % n) = t := by omega
    rw [h4, Nat.mod_eq_of_lt ht]

theorem readBack_eq_none {α : Type} (l : List α) :
    readBack l = none ↔ l = [] := by
  unfold readBack
  cases h : l.getLast? with
  | none => simpa using List.getLast?_eq_none_iff.mp h
  | some x =>
    simp only []
    constructor
    · intro hc; cases hc
    · intro hl; subst hl; simp at h

theorem readBack_eq_some {α : Type} {l r : List α} {x : α} :
    readBack l = some (x, r) ↔ l = r ++ [x] := by
  unfold readBack
  cases h : l.getLast? with
  | none =>
    have : l = [] := List.getLast?_eq_none_iff.mp h
    subst this
    simp
  | some y =>
    have hne : l ≠ [] := by
      intro hl; subst hl; simp at h
    have hy : l.getLast hne = y := by
      have := List.getLast?_eq_getLast l hne
      rw [h] at this; exact (Option.some_injective _ this.symm)
    have hdec : l.dropLast ++ [y] = l := by
      rw [← hy]; exact List.dropLast_append_getLast hne
    constructor
    · intro hc
      have h1 : y = x ∧ l.dropLast = r := by
        have := Option.some_injective _ hc
        exact ⟨congrArg Prod.fst this, congrArg Prod.snd this⟩
      rw [← h1.1, ← h1.2, hdec]
    · intro hl
      have h1 : l.dropLast = r := by rw [hl]; simp
      have h2 : y = x := by
        rw [hl] at h; simpa using h.symm
      rw [h1, h2]

/-! ## Frame lemmas -/

theorem scalars_pushEvents (s : SchedState) (es : List Event) :
    scalars (pushEvents s es) = scalars s := rfl

theorem scalars_setPipe (s : SchedState) (p t : Nat) (v : List SubTaskSet) :
    scalars (setPipe s p t v) = scalars s := rfl

theorem scalars_setPinned (s : SchedState) (p t : Nat) (v : List Nat) :
    scalars (setPinned s p t v) = scalars s := rfl

theorem scalars_fetchAddRunning (s : SchedState) (i : Nat) (d : Int) (o : MemOrder) :
    scalars (fetchAddRunning s i d o) = scalars s := rfl

theorem scalars_setRunning (s : SchedState) (i : Nat) (v : Int) (o : MemOrder) :
    scalars (setRunning s i v o) = scalars s := rfl

theorem scalars_WakeThreads (s : SchedState) : scalars (WakeThreads s) = scalars s := rfl

theorem scalars_splitAndAddStep (th r : Nat) (s : SchedState) (acc : SAAcc) :
    scalars (splitAndAddStep th r s acc).1 = scalars s := by
  unfold splitAndAddStep
  dsimp only
  split
  · rfl
  · dsimp only
    split <;> rfl

theorem getTask_pushEvents (s : SchedState) (es : List Event) (j : Nat) :
    getTask (pushEvents s es) j = getTask s j := rfl

theorem getTask_setPipe (s : SchedState) (p t : Nat) (v : List SubTaskSet) (j : Nat) :
    getTask (setPipe s p t v) j = getTask s j := rfl

theorem getTask_setPinned (s : SchedState) (p t : Nat) (v : List Nat) (j : Nat) :
    getTask (setPinned s p t v) j = getTask s j := rfl

theorem getTask_WakeThreads (s : SchedState) (j : Nat) :
    getTask (WakeThreads s) j = getTask s j := rfl

theorem taskShape_fetchAddRunning (s : SchedState) (i : Nat) (d : Int)
    (o : MemOrder) (j : Nat) :
    taskShape (getTask (fetchAddRunning s i d o) j) = taskShape (getTask s j) := by
  unfold getTask fetchAddRunning
  dsimp only
  rcases eq_or_ne i j with rfl | hne
  · rw [listGetD_set]
    split
    · rfl
    · rw [List.getD_eq_default _ _ (by omega)]
  · rw [listGetD_set_ne _ _ _ _ _ hne]

theorem taskShape_setRunning (s : SchedState) (i : Nat) (v : Int)
    (o : MemOrder) (j : Nat) :
    taskShape (getTask (setRunning s i v o) j) = taskShape (getTask s j) := by
  unfold getTask setRunning
  dsimp only
  rcases eq_or_ne i j with rfl | hne
  · rw [listGetD_set]
    split
    · rfl
    · rw [List.getD_eq_default _ _ (by omega)]
  · rw [listGetD_set_ne _ _ _ _ _ hne]

theorem taskShape_splitAndAddStep (th r : Nat) (s : SchedState) (acc : SAAcc) (j : Nat) :
    taskShape (getTask (splitAndAddStep th r s acc).1 j) = taskShape (getTask s j) := by
  unfold splitAndAddStep
  dsimp only
  split
  · rw [getTask_pushEvents, getTask_setPipe, taskShape_fetchAddRunning]
  · dsimp only
    rw [taskShape_fetchAddRunning, getTask_pushEvents]
    split
    · rw [getTask_WakeThreads, taskShape_fetchAddRunning]
    · rw [taskShape_fetchAddRunning]

theorem pipes_pushEvents (s : SchedState) (es : List Event) :
    (pushEvents s es).pipes = s.pipes := rfl

theorem pipes_fetchAddRunning (s : SchedState) (i : Nat) (d : Int) (o : MemOrder) :
    (fetchAddRunning s i d o).pipes = s.pipes := rfl

theorem pipes_setRunning (s : SchedState) (i : Nat) (v : Int) (o : MemOrder) :
    (setRunning s i v o).pipes = s.pipes := rfl

theorem pipes_WakeThreads (s : SchedState) : (WakeThreads s).pipes = s.pipes := rfl

theorem pipes_setPinned (s : SchedState) (p t : Nat) (v : List Nat) :
    (setPinned s p t v).pipes = s.pipes := rfl

theorem pinned_pushEvents (s : SchedState) (es : List Event) :
    (pushEvents s es).pinned = s.pinned := rfl

theorem pinned_fetchAddRunning (s : SchedState) (i : Nat) (d : Int) (o : MemOrder) :
    (fetchAddRunning s i d o).pinned = s.pinned := rfl

theorem pinned_setRunning (s : SchedState) (i : Nat) (v : Int) (o : MemOrder) :
    (setRunning s i v o).pinned = s.pinned := rfl

theorem pinned_WakeThreads (s : SchedState) : (WakeThreads s).pinned = s.pinned := rfl

theorem pinned_setPipe (s : SchedState) (p t : Nat) (v : List SubTaskSet) :
    (setPipe s p t v).pinned = s.pinned := rfl

theorem pinned_splitAndAddStep (th r : Nat) (s : SchedState) (acc : SAAcc) :
    (splitAndAddStep th r s acc).1.pinned = s.pinned := by
  unfold splitAndAddStep
  dsimp only
  split
  · rfl
  · dsimp only
    split <;> rfl

theorem getPipe_eq_of_pipes_eq {s s' : SchedState} (h : s'.pipes = s.pipes)
    (p t : Nat) : getPipe s' p t = getPipe s p t := by
  unfold getPipe; rw [h]

theorem getPipe_setPipe_ne {s : SchedState} {p th q t : Nat}
    (v : List SubTaskSet) (h : t ≠ th ∨ q ≠ p) :
    getPipe (setPipe s p th v) q t = getPipe s q t := by
  unfold getPipe setPipe
  dsimp only
  rcases eq_or_ne q p with rfl | hqp
  · rcases h with h | h
    · rw [listGetD_set]
      split
      · rw [listGetD_set_ne _ _ _ _ _ (fun hh => h hh.symm)]
      · rw [show s.pipes.getD q [] = [] from List.getD_eq_default _ _ (by omega)]
    · exact absurd rfl h
  · rw [listGetD_set_ne _ _ _ _ _ (fun hh => hqp hh.symm)]

theorem getPipe_ne_nil_bounds {s : SchedState} {p t : Nat}
    (h : getPipe s p t ≠ []) :
    p < s.pipes.length ∧ t < (s.pipes.getD p []).length := by
  unfold getPipe at h
  constructor
  · by_contra hc
    rw [show s.pipes.getD p [] = [] from List.getD_eq_default _ _ (by omega)] at h
    exact h rfl
  · by_contra hc
    rw [show (s.pipes.getD p []).getD t [] = [] from
      List.getD_eq_default _ _ (by omega)] at h
    exact h rfl

theorem getPipe_setPipe_self {s : SchedState} {p t : Nat}
    (hp : p < s.pipes.length) (ht : t < (s.pipes.getD p []).length)
    (v : List SubTaskSet) :
    getPipe (setPipe s p t v) p t = v := by
  unfold getPipe setPipe
  dsimp only
  rw [listGetD_set, if_pos hp, listGetD_set, if_pos ht]

theorem getPinned_setPinned_nil (s : SchedState) (p th : Nat) :
    getPinned (setPinned s p th []) p th = [] := by
  unfold getPinned setPinned
  dsimp only
  rw [listGetD_set]
  split
  · rw [listGetD_set]
    split
    · rfl
    · rfl
  · rfl

theorem getPinned_setPinned_preserve_nil {s : SchedState} {q th x : Nat}
    (h : getPinned s x th = []) :
    getPinned (setPinned s q th []) x th = [] := by
  rcases eq_or_ne q x with rfl | hne
  · exact getPinned_setPinned_nil s q th
  · unfold getPinned setPinned
    unfold getPinned at h
    dsimp only
    rw [listGetD_set_ne _ _ _ _ _ hne]
    exact h

theorem setPinned_self_nil {s : SchedState} {p th : Nat}
    (h : getPinned s p th = []) : setPinned s p th [] = s := by
  unfold setPinned
  unfold getPinned at h
  have h1 : (s.pinned.getD p []).set th [] = s.pinned.getD p [] := by
    conv_lhs => rw [← h]
    exact listSet_getD_self _ _ _
  rw [h1, listSet_getD_self]

theorem shape_rangeToRun {t t' : TaskData} (h : taskShape t = taskShape t') :
    t.rangeToRun = t'.rangeToRun := by
  simp only [taskShape, Prod.mk.injEq] at h
  exact h.2.2.1

theorem shape_priority {t t' : TaskData} (h : taskShape t = taskShape t') :
    t.priority = t'.priority := by
  simp only [taskShape, Prod.mk.injEq] at h
  exact h.2.2.2.1

theorem shape_setSize {t t' : TaskData} (h : taskShape t = taskShape t') :
    t.setSize = t'.setSize := by
  simp only [taskShape, Prod.mk.injEq] at h
  exact h.1

theorem shape_minRange {t t' : TaskData} (h : taskShape t = taskShape t') :
    t.minRange = t'.minRange := by
  simp only [taskShape, Prod.mk.injEq] at h
  exact h.2.1

/-! ## Characterisation of one `SplitAndAddTask` loop iteration -/

/-- With `m_RangeToRun ≥ rangeToSplit_` (so the full-pipe trim can never
fire), one loop iteration advances the remaining range by
`min rangeToSplit (end - start)` whether or not the write succeeded. -/
theorem splitAndAddStep_sub_progress (th chunk : Nat) (s : SchedState) (acc : SAAcc)
    (tid a b : Nat) (hsub : acc.sub = ⟨tid, ⟨a, b⟩⟩) (hab : a < b) (hb : b < U32)
    (hrtr : chunk ≤ (getTask s tid).rangeToRun) :
    (splitAndAddStep th chunk s acc).2.sub = ⟨tid, ⟨a + min chunk (b - a), b⟩⟩ := by
  unfold splitAndAddStep SplitTask
  rw [hsub]
  dsimp only
  rw [u32_mod_sub (le_of_lt hab) hb]
  have hr : (if chunk > b - a then b - a else chunk) = min chunk (b - a) := by
    split <;> omega
  rw [hr]
  have hmin : a + min chunk (b - a) < U32 := by
    have : min chunk (b - a) ≤ b - a := Nat.min_le_right _ _
    omega
  rw [u32_mod_id hmin]
  split
  · rfl
  · dsimp only
    have hpres : (getTask (if acc.numAdded + 1 > 1
        then WakeThreads (fetchAddRunning s tid 1 .acquire)
        else fetchAddRunning s tid 1 .acquire) tid).rangeToRun
        = (getTask s tid).rangeToRun := by
      split
      · rw [getTask_WakeThreads]
        exact shape_rangeToRun (taskShape_fetchAddRunning s tid 1 .acquire tid)
      · exact shape_rangeToRun (taskShape_fetchAddRunning s tid 1 .acquire tid)
    simp only [hpres]
    rw [if_neg (by omega : ¬ (getTask s tid).rangeToRun < chunk)]

/-- With `rangeToSplit_ = 0` an iteration leaves the remaining range
untouched (the carved piece is empty, and the trim cannot fire because
`m_RangeToRun < 0` is impossible). -/
theorem splitAndAddStep_sub_chunk0 (th : Nat) (s : SchedState) (acc : SAAcc)
    (ha : acc.sub.partition.start < U32) :
    (splitAndAddStep th 0 s acc).2.sub = acc.sub := by
  unfold splitAndAddStep SplitTask
  dsimp only
  rw [if_neg (by omega : ¬ (0 : Nat) > (acc.sub.partition.endIdx + U32 - acc.sub.partition.start) % U32)]
  rw [Nat.add_zero, u32_mod_id ha]
  split
  · rfl
  · dsimp only
    rw [if_neg (by omega : ¬ _ < (0 : Nat))]

/-! ## Generic lemmas about the `SplitAndAddTask` loop -/

theorem splitAndAddLoop_done (th r fuel : Nat) (s : SchedState) (acc : SAAcc)
    (h : acc.sub.partition.start = acc.sub.partition.endIdx) :
    splitAndAddLoop th r fuel s acc = some (WakeThreads s) := by
  unfold splitAndAddLoop
  rw [if_pos h]

theorem splitAndAddLoop_unfold (th r fuel : Nat) (s : SchedState) (acc : SAAcc)
    (h : acc.sub.partition.start ≠ acc.sub.partition.endIdx) :
    splitAndAddLoop th r (fuel + 1) s acc =
      splitAndAddLoop th r fuel (splitAndAddStep th r s acc).1
        (splitAndAddStep th r s acc).2 := by
  conv_lhs => unfold splitAndAddLoop
  rw [if_neg h]

theorem splitAndAddLoop_zero (th r : Nat) (s : SchedState) (acc : SAAcc)
    (h : acc.sub.partition.start ≠ acc.sub.partition.endIdx) :
    splitAndAddLoop th r 0 s acc = none := by
  unfold splitAndAddLoop
  rw [if_neg h]

/-- Invariant-based non-termination: if `P` is preserved by the loop body and
forces the loop condition, no fuel makes the loop exit. -/
theorem splitAndAddLoop_none_of (th r : Nat) (P : SchedState → SAAcc → Prop)
    (hstep : ∀ s acc, P s acc →
      acc.sub.partition.start ≠ acc.sub.partition.endIdx ∧
      P (splitAndAddStep th r s acc).1 (splitAndAddStep th r s acc).2) :
    ∀ fuel (s : SchedState) (acc : SAAcc), P s acc →
      splitAndAddLoop th r fuel s acc = none := by
  intro fuel
  induction fuel with
  | zero =>
    intro s acc hP
    exact splitAndAddLoop_zero th r s acc (hstep s acc hP).1
  | succ n ih =>
    intro s acc hP
    rw [splitAndAddLoop_unfold th r n s acc (hstep s acc hP).1]
    exact ih _ _ (hstep s acc hP).2

theorem getPipe_splitAndAddStep_ne (th r : Nat) (s : SchedState) (acc : SAAcc)
    (q t : Nat) (h : t ≠ th) :
    getPipe (splitAndAddStep th r s acc).1 q t = getPipe s q t := by
  unfold splitAndAddStep
  dsimp only
  split
  · rw [show ∀ (x : SchedState) es, getPipe (pushEvents x es) q t = getPipe x q t
      from fun _ _ => rfl]
    rw [getPipe_setPipe_ne _ (Or.inl h)]
    rfl
  · dsimp only
    refine getPipe_eq_of_pipes_eq ?_ q t
    split <;> rfl

theorem getPinned_eq_of_pinned_eq {s s' : SchedState} (h : s'.pinned = s.pinned)
    (p t : Nat) : getPinned s' p t = getPinned s p t := by
  unfold getPinned
  rw [h]

/-- State facts preserved across a completed `SplitAndAddTask` loop:
scheduler scalars, all task shapes, the pinned lists, and every pipe column
other than the writing thread's. -/
theorem splitAndAddLoop_preserves :
    ∀ (fuel th r : Nat) (s : SchedState) (acc : SAAcc) (s' : SchedState),
      splitAndAddLoop th r fuel s acc = some s' →
      scalars s' = scalars s ∧
      (∀ j, taskShape (getTask s' j) = taskShape (getTask s j)) ∧
      s'.pinned = s.pinned ∧
      (∀ q t, t ≠ th → getPipe s' q t = getPipe s q t) := by
  intro fuel
  induction fuel with
  | zero =>
    intro th r s acc s' h
    unfold splitAndAddLoop at h
    split at h
    · have hs : s' = WakeThreads s := by
        cases h; rfl
      subst hs
      exact ⟨rfl, fun _ => rfl, rfl, fun _ _ _ => rfl⟩
    · cases h
  | succ n ih =>
    intro th r s acc s' h
    by_cases hd : acc.sub.partition.start = acc.sub.partition.endIdx
    · rw [splitAndAddLoop_done _ _ _ _ _ hd] at h
      have hs : s' = WakeThreads s := by cases h; rfl
      subst hs
      exact ⟨rfl, fun _ => rfl, rfl, fun _ _ _ => rfl⟩
    · rw [splitAndAddLoop_unfold _ _ _ _ _ hd] at h
      obtain ⟨h1, h2, h3, h4⟩ := ih th r _ _ _ h
      refine ⟨?_, ?_, ?_, ?_⟩
      · rw [h1, scalars_splitAndAddStep]
      · intro j
        rw [h2 j, taskShape_splitAndAddStep]
      · rw [h3, pinned_splitAndAddStep]
      · intro q t ht
        rw [h4 q t ht, getPipe_splitAndAddStep_ne _ _ _ _ _ _ ht]

/-- Termination of the `SplitAndAddTask` loop when the chunk is positive and
`m_RangeToRun ≥ chunk` (so the faulty trim can never fire): the remaining
range shrinks by at least one per iteration. -/
theorem splitAndAddLoop_isSome :
    ∀ (fuel th chunk : Nat) (s : SchedState) (acc : SAAcc),
      1 ≤ chunk → chunk ≤ (getTask s acc.sub.pTask).rangeToRun →
      acc.sub.partition.start ≤ acc.sub.partition.endIdx →
      acc.sub.partition.endIdx < U32 →
      acc.sub.partition.endIdx - acc.sub.partition.start ≤ fuel →
      (splitAndAddLoop th chunk fuel s acc).isSome := by
  intro fuel
  induction fuel with
  | zero =>
    intro th chunk s acc hc hr hab hb hm
    have hd : acc.sub.partition.start = acc.sub.partition.endIdx := by omega
    rw [splitAndAddLoop_done _ _ _ _ _ hd]
    rfl
  | succ n ih =>
    intro th chunk s acc hc hr hab hb hm
    by_cases hd : acc.sub.partition.start = acc.sub.partition.endIdx
    · rw [splitAndAddLoop_done _ _ _ _ _ hd]
      rfl
    · rw [splitAndAddLoop_unfold _ _ _ _ _ hd]
      have hab' : acc.sub.partition.start < acc.sub.partition.endIdx := by omega
      have hstep := splitAndAddStep_sub_progress th chunk s acc acc.sub.pTask
        acc.sub.partition.start acc.sub.partition.endIdx rfl hab' hb hr
      have hshape := taskShape_splitAndAddStep th chunk s acc acc.sub.pTask
      refine ih th chunk _ _ hc ?_ ?_ ?_ ?_
      · rw [hstep]
        dsimp only
        rw [shape_rangeToRun hshape]
        exact hr
      · rw [hstep]
        dsimp only
        have := Nat.min_le_right chunk
          (acc.sub.partition.endIdx - acc.sub.partition.start)
        omega
      · rw [hstep]
        exact hb
      · rw [hstep]
        dsimp only
        have h1 : 1 ≤ min chunk (acc.sub.partition.endIdx - acc.sub.partition.start) := by
          rw [Nat.le_min]
          omega
        have := Nat.min_le_right chunk
          (acc.sub.partition.endIdx - acc.sub.partition.start)
        omega

/-! ## Lemmas about pinned-task draining -/

theorem runPinnedExec_frame :
    ∀ (ids : List Nat) (th : Nat) (s : SchedState),
      (runPinnedExec th s ids).pipes = s.pipes ∧
      (runPinnedExec th s ids).pinned = s.pinned ∧
      scalars (runPinnedExec th s ids) = scalars s
  | [], _, _ => ⟨rfl, rfl, rfl⟩
  | _ :: ids, th, s => by
    obtain ⟨h1, h2, h3⟩ := runPinnedExec_frame ids th _
    exact ⟨h1, h2, h3⟩

theorem pipes_RunPinnedTasks (s : SchedState) (th p : Nat) :
    (RunPinnedTasks s th p).pipes = s.pipes := by
  unfold RunPinnedTasks
  rw [(runPinnedExec_frame _ _ _).1]
  rfl

theorem scalars_RunPinnedTasks (s : SchedState) (th p : Nat) :
    scalars (RunPinnedTasks s th p) = scalars s := by
  unfold RunPinnedTasks
  rw [(runPinnedExec_frame _ _ _).2.2]
  rfl

theorem getPinned_RunPinnedTasks_self (s : SchedState) (th p : Nat) :
    getPinned (RunPinnedTasks s th p) p th = [] := by
  unfold RunPinnedTasks
  rw [getPinned_eq_of_pinned_eq (runPinnedExec_frame _ _ _).2.1]
  exact getPinned_setPinned_nil s p th

theorem getPinned_RunPinnedTasks_preserve_nil {s : SchedState} {q th x : Nat}
    (h : getPinned s x th = []) :
    getPinned (RunPinnedTasks s th q) x th = [] := by
  unfold RunPinnedTasks
  rw [getPinned_eq_of_pinned_eq (runPinnedExec_frame _ _ _).2.1]
  exact getPinned_setPinned_preserve_nil h

theorem RunPinnedTasks_empty {s : SchedState} {th p : Nat}
    (h : getPinned s p th = []) : RunPinnedTasks s th p = s := by
  unfold RunPinnedTasks
  rw [h]
  exact setPinned_self_nil h

/-! ## Lemmas about the steal probe -/

theorem probePipes_skip_self {s : SchedState} {k : Nat} (p th hint : Nat)
    (ks : List Nat) (h : (hint + k) % s.numThreads = th) :
    probePipes s p th hint (k :: ks) = probePipes s p th hint ks := by
  conv_lhs => unfold probePipes
  dsimp only
  rw [if_neg (not_not_intro h)]

theorem probePipes_skip_empty {s : SchedState} {k : Nat} (p th hint : Nat)
    (ks : List Nat) (h : getPipe s p ((hint + k) % s.numThreads) = []) :
    probePipes s p th hint (k :: ks) = probePipes s p th hint ks := by
  conv_lhs => unfold probePipes
  dsimp only
  split
  · rw [h]
    rfl
  · rfl

theorem probePipes_hit {s : SchedState} {k : Nat} {x : SubTaskSet}
    {r : List SubTaskSet} (p th hint : Nat) (ks : List Nat)
    (hth : (hint + k) % s.numThreads ≠ th)
    (hrb : readBack (getPipe s p ((hint + k) % s.numThreads)) = some (x, r)) :
    probePipes s p th hint (k :: ks) =
      some (x, (hint + k) % s.numThreads,
        setPipe s p ((hint + k) % s.numThreads) r) := by
  conv_lhs => unfold probePipes
  dsimp only
  rw [if_pos hth, hrb]

theorem readBack_of_ne_nil {α : Type} {l : List α} (h : l ≠ []) :
    readBack l = some (l.getLast h, l.dropLast) := by
  unfold readBack
  rw [List.getLast?_eq_getLast l h]

theorem probePipes_none_iff (s : SchedState) (p th hint : Nat) :
    ∀ ks : List Nat,
      probePipes s p th hint ks = none ↔
      ∀ k ∈ ks, (hint + k) % s.numThreads = th ∨
        getPipe s p ((hint + k) % s.numThreads) = []
  | [] => by simp [probePipes]
  | k :: ks => by
    by_cases hth : (hint + k) % s.numThreads = th
    · rw [probePipes_skip_self p th hint ks hth,
        probePipes_none_iff s p th hint ks]
      constructor
      · intro hall k' hk'
        rcases List.mem_cons.mp hk' with rfl | hk'
        · exact Or.inl hth
        · exact hall k' hk'
      · intro hall k' hk'
        exact hall k' (List.mem_cons_of_mem _ hk')
    · by_cases hpl : getPipe s p ((hint + k) % s.numThreads) = []
      · rw [probePipes_skip_empty p th hint ks hpl,
          probePipes_none_iff s p th hint ks]
        constructor
        · intro hall k' hk'
          rcases List.mem_cons.mp hk' with rfl | hk'
          · exact Or.inr hpl
          · exact hall k' hk'
        · intro hall k' hk'
          exact hall k' (List.mem_cons_of_mem _ hk')
      · rw [probePipes_hit p th hint ks hth (readBack_of_ne_nil hpl)]
        constructor
        · intro hc
          cases hc
        · intro hall
          rcases hall k (List.mem_cons_self _ _) with h | h
          · exact absurd h hth
          · exact absurd h hpl

theorem probePipes_some_spec (s : SchedState) (p th hint : Nat) :
    ∀ (ks : List Nat) (x : SubTaskSet) (t : Nat) (s' : SchedState),
      probePipes s p th hint ks = some (x, t, s') →
      t ≠ th ∧ getPipe s p t = (getPipe s p t).dropLast ++ [x] ∧
        s' = setPipe s p t ((getPipe s p t).dropLast)
  | [], _, _, _, h => by cases h
  | k :: ks, x, t, s', h => by
    by_cases hth : (hint + k) % s.numThreads = th
    · rw [probePipes_skip_self p th hint ks hth] at h
      exact probePipes_some_spec s p th hint ks x t s' h
    · by_cases hpl : getPipe s p ((hint + k) % s.numThreads) = []
      · rw [probePipes_skip_empty p th hint ks hpl] at h
        exact probePipes_some_spec s p th hint ks x t s' h
      · rw [probePipes_hit p th hint ks hth (readBack_of_ne_nil hpl)] at h
        have hx1 : (getPipe s p ((hint + k) % s.numThreads)).getLast hpl = x := by
          cases h; rfl
        have hx2 : (hint + k) % s.numThreads = t := by cases h; rfl
        have hx3 : setPipe s p ((hint + k) % s.numThreads)
            ((getPipe s p ((hint + k) % s.numThreads)).dropLast) = s' := by
          cases h; rfl
        subst hx2
        refine ⟨hth, ?_, hx3.symm⟩
        rw [← hx1]
        exact (List.dropLast_append_getLast hpl).symm

theorem probePipes_firstPeer (s : SchedState) (p th hint : Nat) :
    ∀ ks : List Nat,
      (probePipes s p th hint ks).map (fun r => r.2.1) =
        ((ks.map (fun k => (hint + k) % s.numThreads)).filter
          (fun t => t ≠ th && !(getPipe s p t).isEmpty)).head?
  | [] => rfl
  | k :: ks => by
    rw [List.map_cons, List.filter_cons]
    by_cases hth : (hint + k) % s.numThreads = th
    · rw [probePipes_skip_self p th hint ks hth]
      rw [if_neg (by simp [hth])]
      exact probePipes_firstPeer s p th hint ks
    · by_cases hpl : getPipe s p ((hint + k) % s.numThreads) = []
      · rw [probePipes_skip_empty p th hint ks hpl]
        rw [if_neg (by simp [hpl])]
        exact probePipes_firstPeer s p th hint ks
      · rw [probePipes_hit p th hint ks hth (readBack_of_ne_nil hpl)]
        rw [if_pos (by simp [hth, hpl])]
        rfl

theorem specFirstPeer_congr {s s' : SchedState} (p th hint : Nat)
    (hp : s'.pipes = s.pipes) (hn : s'.numThreads = s.numThreads) :
    specFirstPeer s' p th hint = specFirstPeer s p th hint := by
  simp only [specFirstPeer, getPipe, hp, hn]

/-! ## Event-trace monotonicity -/

theorem events_runPinnedExec :
    ∀ (ids : List Nat) (th : Nat) (s : SchedState),
      (runPinnedExec th s ids).events = s.events ++ pinnedDrainTrace th ids
  | [], _, s => by simp [runPinnedExec, pinnedDrainTrace]
  | id :: ids, th, s => by
    unfold runPinnedExec
    rw [List.foldl_cons]
    have := events_runPinnedExec ids th
      (setRunning (pushEvents s [.execPinned id th]) id 0 .seqcst)
    rw [show List.foldl _ (setRunning (pushEvents s [.execPinned id th]) id 0 .seqcst) ids
        = runPinnedExec th (setRunning (pushEvents s [.execPinned id th]) id 0 .seqcst) ids
      from rfl]
    rw [this]
    simp [setRunning, pushEvents, pinnedDrainTrace]

theorem events_RunPinnedTasks (s : SchedState) (th p : Nat) :
    (RunPinnedTasks s th p).events =
      s.events ++ pinnedDrainTrace th ((getPinned s p th).reverse) := by
  unfold RunPinnedTasks
  rw [events_runPinnedExec]
  rfl

theorem eventsExt_trans {a b c : SchedState} (h1 : eventsExt a b)
    (h2 : eventsExt b c) : eventsExt a c := by
  obtain ⟨r1, hr1⟩ := h1
  obtain ⟨r2, hr2⟩ := h2
  exact ⟨r1 ++ r2, by rw [hr2, hr1, List.append_assoc]⟩

theorem eventsExt_pushEvents (s : SchedState) (es : List Event) :
    eventsExt s (pushEvents s es) := ⟨es, rfl⟩

theorem eventsExt_fetchAdd (s : SchedState) (i : Nat) (d : Int) (o : MemOrder) :
    eventsExt s (fetchAddRunning s i d o) := ⟨_, rfl⟩

theorem eventsExt_setRunning (s : SchedState) (i : Nat) (v : Int) (o : MemOrder) :
    eventsExt s (setRunning s i v o) := ⟨_, rfl⟩

theorem eventsExt_setPipe (s : SchedState) (p t : Nat) (v : List SubTaskSet) :
    eventsExt s (setPipe s p t v) := ⟨[], by simp [setPipe]⟩

theorem eventsExt_WakeThreads (s : SchedState) : eventsExt s (WakeThreads s) :=
  ⟨_, rfl⟩

theorem eventsExt_splitAndAddStep (th r : Nat) (s : SchedState) (acc : SAAcc) :
    eventsExt s (splitAndAddStep th r s acc).1 := by
  unfold splitAndAddStep
  dsimp only
  split
  · exact eventsExt_trans (eventsExt_fetchAdd _ _ _ _)
      (eventsExt_trans (eventsExt_setPipe _ _ _ _) (eventsExt_pushEvents _ _))
  · dsimp only
    refine eventsExt_trans (eventsExt_trans ?_ (eventsExt_pushEvents _ _))
      (eventsExt_fetchAdd _ _ _ _)
    split
    · exact eventsExt_trans (eventsExt_fetchAdd _ _ _ _) (eventsExt_WakeThreads _)
    · exact eventsExt_fetchAdd _ _ _ _

theorem eventsExt_splitAndAddLoop :
    ∀ (fuel th r : Nat) (s : SchedState) (acc : SAAcc) (s' : SchedState),
      splitAndAddLoop th r fuel s acc = some s' → eventsExt s s' := by
  intro fuel
  induction fuel with
  | zero =>
    intro th r s acc s' h
    unfold splitAndAddLoop at h
    split at h
    · cases h
      exact eventsExt_WakeThreads _
    · cases h
  | succ n ih =>
    intro th r s acc s' h
    by_cases hd : acc.sub.partition.start = acc.sub.partition.endIdx
    · rw [splitAndAddLoop_done _ _ _ _ _ hd] at h
      cases h
      exact eventsExt_WakeThreads _
    · rw [splitAndAddLoop_unfold _ _ _ _ _ hd] at h
      exact eventsExt_trans (eventsExt_splitAndAddStep th r s acc) (ih th r _ _ _ h)

/-! ## Characterisation of `TryRunTask` -/

theorem finishTask_some {fuel : Nat} {s : SchedState} {th hv : Nat}
    {sub : SubTaskSet} {b : Bool} {h' : Nat} {s' : SchedState}
    (h : finishTask fuel s th hv sub = some (b, h', s')) :
    b = true ∧ h' = hv := by
  unfold finishTask at h
  dsimp only at h
  split at h
  · split at h
    · cases h
    · cases h
      exact ⟨rfl, rfl⟩
  · cases h
    exact ⟨rfl, rfl⟩

theorem finishTask_frame {fuel : Nat} {s : SchedState} {th hv : Nat}
    {sub : SubTaskSet} {b : Bool} {h' : Nat} {s' : SchedState}
    (h : finishTask fuel s th hv sub = some (b, h', s')) :
    s'.pinned = s.pinned ∧ scalars s' = scalars s ∧
    (∀ q t, t ≠ th → getPipe s' q t = getPipe s q t) ∧ eventsExt s s' := by
  unfold finishTask at h
  dsimp only at h
  split at h
  · split at h
    · cases h
    · next s2 hm =>
      cases h
      obtain ⟨hsc, hsh, hpin, hpp⟩ := splitAndAddLoop_preserves _ _ _ _ _ _ hm
      have hev := eventsExt_splitAndAddLoop _ _ _ _ _ _ hm
      refine ⟨hpin, hsc, ?_, ?_⟩
      · intro q t ht
        exact hpp q t ht
      · exact eventsExt_trans hev
          (eventsExt_trans (eventsExt_pushEvents _ _) (eventsExt_fetchAdd _ _ _ _))
  · cases h
    exact ⟨rfl, rfl, fun _ _ _ => rfl,
      eventsExt_trans (eventsExt_pushEvents _ _) (eventsExt_fetchAdd _ _ _ _)⟩

theorem tryRunTaskPrio_false {fuel : Nat} {s : SchedState} {th p hint : Nat}
    {h' : Nat} {s' : SchedState}
    (h : TryRunTaskPrio fuel s th p hint = some (false, h', s')) :
    h' = hint ∧ s' = RunPinnedTasks s th p ∧ getPipe s p th = [] ∧
    specFirstPeer s p th hint = none := by
  unfold TryRunTaskPrio at h
  dsimp only at h
  have hpipes := pipes_RunPinnedTasks s th p
  cases hown : getPipe (RunPinnedTasks s th p) p th with
  | cons sub rest =>
    rw [hown] at h
    exact absurd (finishTask_some h).1 (by simp)
  | nil =>
    rw [hown] at h
    cases hpr : probePipes (RunPinnedTasks s th p) p th hint
        (List.range (RunPinnedTasks s th p).numThreads) with
    | some xts =>
      rw [hpr] at h
      exact absurd (finishTask_some h).1 (by simp)
    | none =>
      rw [hpr] at h
      have hh : hint = h' ∧ RunPinnedTasks s th p = s' := by
        cases h
        exact ⟨rfl, rfl⟩
      have hfp : specFirstPeer (RunPinnedTasks s th p) p th hint = none := by
        have h2 := probePipes_firstPeer (RunPinnedTasks s th p) p th hint
          (List.range (RunPinnedTasks s th p).numThreads)
        rw [hpr] at h2
        unfold specFirstPeer
        simpa using h2.symm
      refine ⟨hh.1.symm, hh.2.symm, ?_, ?_⟩
      · rw [← getPipe_eq_of_pipes_eq hpipes p th]
        exact hown
      · rw [← specFirstPeer_congr p th hint hpipes
          (congrArg (fun x => x.1) (scalars_RunPinnedTasks s th p))]
        exact hfp

theorem tryRunTaskPrio_own {fuel : Nat} {s : SchedState} {th p hint : Nat}
    {b : Bool} {h' : Nat} {s' : SchedState}
    (hown : getPipe s p th ≠ [])
    (h : TryRunTaskPrio fuel s th p hint = some (b, h', s')) :
    b = true ∧ h' = hint := by
  unfold TryRunTaskPrio at h
  dsimp only at h
  have hpipes := pipes_RunPinnedTasks s th p
  cases hcase : getPipe (RunPinnedTasks s th p) p th with
  | nil =>
    rw [getPipe_eq_of_pipes_eq hpipes p th] at hcase
    exact absurd hcase hown
  | cons sub rest =>
    rw [hcase] at h
    exact finishTask_some h

theorem tryRunTaskPrio_iff {fuel : Nat} {s : SchedState} {th p hint : Nat}
    {b : Bool} {h' : Nat} {s' : SchedState}
    (h : TryRunTaskPrio fuel s th p hint = some (b, h', s')) :
    b = true ↔ (getPipe s p th ≠ [] ∨ specFirstPeer s p th hint ≠ none) := by
  unfold TryRunTaskPrio at h
  dsimp only at h
  have hpipes := pipes_RunPinnedTasks s th p
  have hnum : (RunPinnedTasks s th p).numThreads = s.numThreads :=
    congrArg (fun x => x.1) (scalars_RunPinnedTasks s th p)
  cases hcase : getPipe (RunPinnedTasks s th p) p th with
  | cons sub rest =>
    rw [hcase] at h
    have hb := (finishTask_some h).1
    have hown : getPipe s p th ≠ [] := by
      rw [← getPipe_eq_of_pipes_eq hpipes p th, hcase]
      simp
    simp [hb, hown]
  | nil =>
    rw [hcase] at h
    cases hpr : probePipes (RunPinnedTasks s th p) p th hint
        (List.range (RunPinnedTasks s th p).numThreads) with
    | some xts =>
      rw [hpr] at h
      have hb := (finishTask_some h).1
      have hfp : specFirstPeer s p th hint = some xts.2.1 := by
        have h2 := probePipes_firstPeer (RunPinnedTasks s th p) p th hint
          (List.range (RunPinnedTasks s th p).numThreads)
        rw [hpr] at h2
        rw [← specFirstPeer_congr p th hint hpipes hnum]
        unfold specFirstPeer
        simpa using h2.symm
      simp [hb, hfp]
    | none =>
      rw [hpr] at h
      have hb : b = false := by cases h; rfl
      have hown : getPipe s p th = [] := by
        rw [← getPipe_eq_of_pipes_eq hpipes p th]
        exact hcase
      have hfp : specFirstPeer s p th hint = none := by
        have h2 := probePipes_firstPeer (RunPinnedTasks s th p) p th hint
          (List.range (RunPinnedTasks s th p).numThreads)
        rw [hpr] at h2
        rw [← specFirstPeer_congr p th hint hpipes hnum]
        unfold specFirstPeer
        simpa using h2.symm
      simp [hb, hown, hfp]

theorem tryRunTaskPrio_peer {fuel : Nat} {s : SchedState} {th p hint : Nat}
    {h' : Nat} {s' : SchedState}
    (hown : getPipe s p th = [])
    (h : TryRunTaskPrio fuel s th p hint = some (true, h', s')) :
    specFirstPeer s p th hint = some h' ∧ h' ≠ th ∧
    ∃ x, getPipe s p h' = getPipe s' p h' ++ [x] := by
  unfold TryRunTaskPrio at h
  dsimp only at h
  have hpipes := pipes_RunPinnedTasks s th p
  have hnum : (RunPinnedTasks s th p).numThreads = s.numThreads :=
    congrArg (fun x => x.1) (scalars_RunPinnedTasks s th p)
  cases hcase : getPipe (RunPinnedTasks s th p) p th with
  | cons sub rest =>
    rw [getPipe_eq_of_pipes_eq hpipes p th, hown] at hcase
    cases hcase
  | nil =>
    rw [hcase] at h
    cases hpr : probePipes (RunPinnedTasks s th p) p th hint
        (List.range (RunPinnedTasks s th p).numThreads) with
    | none =>
      rw [hpr] at h
      cases h
    | some xts =>
      rw [hpr] at h
      obtain ⟨x, t, s1⟩ := xts
      have hspec := probePipes_some_spec (RunPinnedTasks s th p) p th hint
        (List.range (RunPinnedTasks s th p).numThreads) x t s1 hpr
      have hht : h' = t := (finishTask_some h).2
      subst hht
      have hfp : specFirstPeer s p th hint = some h' := by
        have h2 := probePipes_firstPeer (RunPinnedTasks s th p) p th hint
          (List.range (RunPinnedTasks s th p).numThreads)
        rw [hpr] at h2
        rw [← specFirstPeer_congr p th hint hpipes hnum]
        unfold specFirstPeer
        simpa using h2.symm
      have hne : getPipe (RunPinnedTasks s th p) p h' ≠ [] := by
        rw [hspec.2.1]
        simp
      have hbounds := getPipe_ne_nil_bounds hne
      have hs1 : getPipe s1 p h' = (getPipe (RunPinnedTasks s th p) p h').dropLast := by
        rw [hspec.2.2]
        exact getPipe_setPipe_self hbounds.1 hbounds.2 _
      have hframe := finishTask_frame h
      have hs' : getPipe s' p h' = getPipe s1 p h' := hframe.2.2.1 p h' hspec.1
      refine ⟨hfp, hspec.1, ⟨x, ?_⟩⟩
      rw [← getPipe_eq_of_pipes_eq hpipes p h', hs', hs1]
      exact hspec.2.1

theorem tryRunTaskPrio_frame {fuel : Nat} {s : SchedState} {th p hint : Nat}
    {b : Bool} {h' : Nat} {s' : SchedState}
    (h : TryRunTaskPrio fuel s th p hint = some (b, h', s')) :
    scalars s' = scalars s ∧ getPinned s' p th = [] ∧
    (∀ x, getPinned s x th = [] → getPinned s' x th = []) ∧
    (∃ rest, s'.events =
      s.events ++ pinnedDrainTrace th ((getPinned s p th).reverse) ++ rest) := by
  unfold TryRunTaskPrio at h
  dsimp only at h
  have hestep := events_RunPinnedTasks s th p
  cases hcase : getPipe (RunPinnedTasks s th p) p th with
  | cons sub rest =>
    rw [hcase] at h
    obtain ⟨hpin, hsc, _, hev⟩ := finishTask_frame h
    refine ⟨?_, ?_, ?_, ?_⟩
    · rw [hsc]
      exact scalars_RunPinnedTasks s th p
    · rw [getPinned_eq_of_pinned_eq hpin,
        getPinned_eq_of_pinned_eq (rfl :
          (setPipe (RunPinnedTasks s th p) p th rest).pinned = _)]
      exact getPinned_RunPinnedTasks_self s th p
    · intro x hx
      rw [getPinned_eq_of_pinned_eq hpin,
        getPinned_eq_of_pinned_eq (rfl :
          (setPipe (RunPinnedTasks s th p) p th rest).pinned = _)]
      exact getPinned_RunPinnedTasks_preserve_nil hx
    · obtain ⟨r1, hr1⟩ := hev
      refine ⟨r1, ?_⟩
      rw [hr1]
      rw [show (setPipe (RunPinnedTasks s th p) p th rest).events =
        (RunPinnedTasks s th p).events from rfl]
      rw [hestep]
  | nil =>
    rw [hcase] at h
    cases hpr : probePipes (RunPinnedTasks s th p) p th hint
        (List.range (RunPinnedTasks s th p).numThreads) with
    | none =>
      rw [hpr] at h
      have hs' : RunPinnedTasks s th p = s' := by cases h; rfl
      subst hs'
      refine ⟨scalars_RunPinnedTasks s th p, getPinned_RunPinnedTasks_self s th p,
        fun x hx => getPinned_RunPinnedTasks_preserve_nil hx, ⟨[], by simp [hestep]⟩⟩
    | some xts =>
      rw [hpr] at h
      obtain ⟨x, t, s1⟩ := xts
      have hspec := probePipes_some_spec (RunPinnedTasks s th p) p th hint
        (List.range (RunPinnedTasks s th p).numThreads) x t s1 hpr
      obtain ⟨hpin, hsc, _, hev⟩ := finishTask_frame h
      have hs1pin : s1.pinned = (RunPinnedTasks s th p).pinned := by
        rw [hspec.2.2]
        rfl
      have hs1ev : s1.events = (RunPinnedTasks s th p).events := by
        rw [hspec.2.2]
        rfl
      have hs1sc : scalars s1 = scalars (RunPinnedTasks s th p) := by
        rw [hspec.2.2]
        rfl
      refine ⟨?_, ?_, ?_, ?_⟩
      · rw [hsc, hs1sc]
        exact scalars_RunPinnedTasks s th p
      · rw [getPinned_eq_of_pinned_eq hpin, getPinned_eq_of_pinned_eq hs1pin]
        exact getPinned_RunPinnedTasks_self s th p
      · intro y hy
        rw [getPinned_eq_of_pinned_eq hpin, getPinned_eq_of_pinned_eq hs1pin]
        exact getPinned_RunPinnedTasks_preserve_nil hy
      · obtain ⟨r1, hr1⟩ := hev
        refine ⟨r1, ?_⟩
        rw [hr1, hs1ev, hestep]

theorem tryRunTaskPrios_scalars :
    ∀ (ps : List Nat) (fuel th hint : Nat) (s : SchedState) (b : Bool)
      (h' : Nat) (s' : SchedState),
      tryRunTaskPrios fuel th ps hint s = some (b, h', s') →
      scalars s' = scalars s
  | [], fuel, th, hint, s, b, h', s', h => by
    cases h
    rfl
  | p :: ps, fuel, th, hint, s, b, h', s', h => by
    unfold tryRunTaskPrios at h
    cases hattempt : TryRunTaskPrio fuel s th p hint with
    | none =>
      rw [hattempt] at h
      cases h
    | some r =>
      obtain ⟨b2, h2, s2⟩ := r
      rw [hattempt] at h
      cases b2 with
      | true =>
        have hss : s2 = s' := by cases h; rfl
        subst hss
        exact (tryRunTaskPrio_frame hattempt).1
      | false =>
        have hrec : tryRunTaskPrios fuel th ps h2 s2 = some (b, h', s') := h
        rw [tryRunTaskPrios_scalars ps fuel th h2 s2 b h' s' hrec]
        exact (tryRunTaskPrio_frame hattempt).1

theorem tryRunTaskPrios_false :
    ∀ (ps : List Nat) (fuel th hint : Nat) (s : SchedState) (h' : Nat)
      (s' : SchedState),
      tryRunTaskPrios fuel th ps hint s = some (false, h', s') →
      h' = hint ∧ s'.pipes = s.pipes ∧ scalars s' = scalars s ∧
      (∀ p ∈ ps, getPipe s p th = [] ∧ specFirstPeer s p th hint = none) ∧
      (∀ p ∈ ps, getPinned s' p th = []) ∧
      (∀ x, getPinned s x th = [] → getPinned s' x th = [])
  | [], fuel, th, hint, s, h', s', h => by
    cases h
    exact ⟨rfl, rfl, rfl, by simp, by simp, fun x hx => hx⟩
  | p :: ps, fuel, th, hint, s, h', s', h => by
    unfold tryRunTaskPrios at h
    cases hattempt : TryRunTaskPrio fuel s th p hint with
    | none =>
      rw [hattempt] at h
      cases h
    | some r =>
      obtain ⟨b2, h2, s2⟩ := r
      rw [hattempt] at h
      cases b2 with
      | true => simp at h
      | false =>
        have hrec : tryRunTaskPrios fuel th ps h2 s2 = some (false, h', s') := h
        obtain ⟨ha1, ha2, ha3, ha4⟩ := tryRunTaskPrio_false hattempt
        subst ha2
        rw [ha1] at hrec
        have hpipes := pipes_RunPinnedTasks s th p
        have hnum : (RunPinnedTasks s th p).numThreads = s.numThreads :=
          congrArg (fun x => x.1) (scalars_RunPinnedTasks s th p)
        obtain ⟨hb1, hb2, hb3, hb4, hb5, hb6⟩ :=
          tryRunTaskPrios_false ps fuel th hint (RunPinnedTasks s th p) h' s' hrec
        refine ⟨hb1, ?_, ?_, ?_, ?_, ?_⟩
        · rw [hb2, hpipes]
        · rw [hb3, scalars_RunPinnedTasks]
        · intro q hq
          rcases List.mem_cons.mp hq with rfl | hq
          · exact ⟨ha3, ha4⟩
          · obtain ⟨hc1, hc2⟩ := hb4 q hq
            refine ⟨?_, ?_⟩
            · rw [← getPipe_eq_of_pipes_eq hpipes q th]
              exact hc1
            · rw [← specFirstPeer_congr q th hint hpipes hnum]
              exact hc2
        · intro q hq
          rcases List.mem_cons.mp hq with rfl | hq
          · exact hb6 q (getPinned_RunPinnedTasks_self s th q)
          · exact hb5 q hq
        · intro x hx
          exact hb6 x (getPinned_RunPinnedTasks_preserve_nil hx)

theorem specFirstPeer_none_all {s : SchedState} {p th hint : Nat}
    (hn : 0 < s.numThreads) (h : specFirstPeer s p th hint = none) :
    ∀ t, t < s.numThreads → t ≠ th → getPipe s p t = [] := by
  intro t ht hne
  unfold specFirstPeer at h
  have hfilter := List.head?_eq_none_iff.mp h
  obtain ⟨k, hk, hmod⟩ := mod_shift_surj s.numThreads hint t hn ht
  have hmem : t ∈ (List.range s.numThreads).map
      (fun k => (hint + k) % s.numThreads) :=
    List.mem_map.mpr ⟨k, List.mem_range.mpr hk, hmod⟩
  by_contra hc
  have hg : (t ≠ th && !(getPipe s p t).isEmpty) = true := by
    simp [hne, hc]
  have : t ∈ ((List.range s.numThreads).map
      (fun k => (hint + k) % s.numThreads)).filter
        (fun t => t ≠ th && !(getPipe s p t).isEmpty) :=
    List.mem_filter.mpr ⟨hmem, hg⟩
  rw [hfilter] at this
  cases this

theorem HaveTasks_eq_false {s : SchedState} {th : Nat}
    (hpipe : ∀ p, p < s.numPriorities → ∀ t, t < s.numThreads → getPipe s p t = [])
    (hpin : ∀ p, p < s.numPriorities → getPinned s p th = []) :
    HaveTasks s th = false := by
  unfold HaveTasks
  rw [List.any_eq_false]
  intro p hp
  rw [List.mem_range] at hp
  have h1 : (List.range s.numThreads).any
      (fun t => !(getPipe s p t).isEmpty) = false := by
    rw [List.any_eq_false]
    intro t htm
    rw [List.mem_range] at htm
    simp [hpipe p hp t htm]
  simp [h1, hpin p hp]

theorem tryRunTaskAll_false {fuel : Nat} {s : SchedState} {th hint : Nat}
    {h' : Nat} {s' : SchedState} (hn : 0 < s.numThreads)
    (h : TryRunTaskAll fuel s th hint = some (false, h', s')) :
    h' = hint ∧ s'.pipes = s.pipes ∧ scalars s' = scalars s ∧
    HaveTasks s' th = false := by
  unfold TryRunTaskAll at h
  obtain ⟨h1, h2, h3, h4, h5, _⟩ := tryRunTaskPrios_false _ _ _ _ _ _ _ h
  have hnp : s'.numPriorities = s.numPriorities :=
    congrArg (fun x => x.2.1) h3
  have hnt : s'.numThreads = s.numThreads :=
    congrArg (fun x => x.1) h3
  refine ⟨h1, h2, h3, ?_⟩
  apply HaveTasks_eq_false
  · intro p hp t ht
    rw [hnp] at hp
    rw [hnt] at ht
    rw [getPipe_eq_of_pipes_eq h2 p t]
    by_cases hth : t = th
    · subst hth
      exact (h4 p (List.mem_range.mpr hp)).1
    · exact specFirstPeer_none_all hn (h4 p (List.mem_range.mpr hp)).2 t ht hth
  · intro p hp
    rw [hnp] at hp
    exact h5 p (List.mem_range.mpr hp)

theorem WaitforAllLoop_spec :
    ∀ (fuel fi th : Nat) (nR : Int) (s : SchedState) (hint : Nat) (b : Bool)
      (res : List Bool) (s' : SchedState) (out : List Bool),
      0 < s.numThreads →
      (b = false → HaveTasks s th = false) →
      (res = [] → b = true) →
      (res ≠ [] → res.getLast? = some b) →
      WaitforAllLoop fi th nR fuel s hint b res = some (s', out) →
      HaveTasks s' th = false ∧ ¬(s'.numThreadsWaiting < nR) ∧
      scalars s' = scalars s ∧ out ≠ [] ∧ out.getLast? = some false := by
  intro fuel
  induction fuel with
  | zero =>
    intro fi th nR s hint b res s' out hn hb hres hlast h
    unfold WaitforAllLoop at h
    split at h
    · cases h
    · next hcond =>
      cases h
      simp only [Bool.or_eq_true, decide_eq_true_eq, not_or,
        Bool.not_eq_true] at hcond
      have hne : res ≠ [] := fun hre => by
        rw [hres hre] at hcond
        exact absurd hcond.1 (by simp)
      refine ⟨hb hcond.1, hcond.2, rfl, hne, ?_⟩
      rw [hlast hne, hcond.1]
  | succ n ih =>
    intro fi th nR s hint b res s' out hn hb hres hlast h
    unfold WaitforAllLoop at h
    split at h
    · cases hattempt : TryRunTaskAll fi s th hint with
      | none =>
        rw [hattempt] at h
        cases h
      | some r =>
        obtain ⟨b2, h2, s2⟩ := r
        rw [hattempt] at h
        have hatt2 := hattempt
        unfold TryRunTaskAll at hatt2
        have hsc2 : scalars s2 = scalars s :=
          tryRunTaskPrios_scalars _ _ _ _ _ _ _ _ hatt2
        have hn2 : 0 < s2.numThreads := by
          have : s2.numThreads = s.numThreads := congrArg (fun x => x.1) hsc2
          omega
        have hb2 : b2 = false → HaveTasks s2 th = false := by
          intro hf
          subst hf
          exact (tryRunTaskAll_false hn hattempt).2.2.2
        obtain ⟨k1, k2, k3, k4, k5⟩ := ih fi th nR s2 h2 b2 (res ++ [b2]) s' out
          hn2 hb2 (by simp) (fun _ => List.getLast?_concat _) h
        exact ⟨k1, k2, by rw [k3, hsc2], k4, k5⟩
    · next hcond =>
      cases h
      simp only [Bool.or_eq_true, decide_eq_true_eq, not_or,
        Bool.not_eq_true] at hcond
      have hne : res ≠ [] := fun hre => by
        rw [hres hre] at hcond
        exact absurd hcond.1 (by simp)
      refine ⟨hb hcond.1, hcond.2, rfl, hne, ?_⟩
      rw [hlast hne, hcond.1]

/-- Claim C4 (confirmed): `WaitforAll` returns only when `HaveTasks()` is
false and `m_NumThreadsWaiting ≥ numThreadsRunning - 1` (the running count
snapshotted at entry, the caller excluded), and every loop iteration invokes
`TryRunTask` once — `results` records, in order, one Boolean per iteration
(the value returned by that iteration's `TryRunTask`), is non-empty, and
ends with the `false` attempt that allowed the exit.  The model is the
sequential one: only the caller acts, so the probe failures in the last
`TryRunTask` are definite emptiness. -/
theorem c4_waitforall_quiescence :
    ∀ (fuel fuelInner : Nat) (s : SchedState) (gtlThreadNum : Nat)
      (s' : SchedState) (results : List Bool),
      0 < s.numThreads →
      WaitforAll fuel fuelInner s gtlThreadNum = some (s', results) →
      HaveTasks s' gtlThreadNum = false ∧
      ¬(s'.numThreadsWaiting < s.numThreadsRunning - 1) ∧
      results ≠ [] ∧ results.getLast? = some false := by
  intro fuel fi s th s' res hn h
  unfold WaitforAll at h
  obtain ⟨k1, k2, _, k4, k5⟩ := WaitforAllLoop_spec fuel fi th
    (s.numThreadsRunning - 1) s (th + 1) true [] s' res hn
    (fun hf => nomatch hf) (fun _ => rfl) (fun hre => absurd rfl hre) h
  exact ⟨k1, k2, k4, k5⟩

/-- Witness for C4 at a concrete quiescent single-thread scheduler. -/
theorem c4_waitforall_quiescence_witness :
    HaveTasks c4State 0 = false ∧
    ¬(c4State.numThreadsWaiting < c4State.numThreadsRunning - 1) ∧
    ([false] : List Bool) ≠ [] ∧ ([false] : List Bool).getLast? = some false :=
  c4_waitforall_quiescence 1 1 c4State 0 c4State [false] (by decide) (by decide)

theorem tryRunTaskPrio_noWork {fuel : Nat} {s : SchedState} {th p hint : Nat}
    (hpin : getPinned s p th = []) (hown : getPipe s p th = [])
    (hfp : specFirstPeer s p th hint = none) :
    TryRunTaskPrio fuel s th p hint = some (false, hint, s) := by
  have hpr : probePipes s p th hint (List.range s.numThreads) = none := by
    have h2 := probePipes_firstPeer s p th hint (List.range s.numThreads)
    unfold specFirstPeer at hfp
    rw [hfp] at h2
    exact Option.map_eq_none'.mp h2
  unfold TryRunTaskPrio
  dsimp only
  rw [RunPinnedTasks_empty hpin, hown]
  dsimp only
  rw [hpr]

theorem tryRunTaskPrios_cons_false {fuel th p hint : Nat} {s : SchedState}
    (ps : List Nat)
    (h : TryRunTaskPrio fuel s th p hint = some (false, hint, s)) :
    tryRunTaskPrios fuel th (p :: ps) hint s = tryRunTaskPrios fuel th ps hint s := by
  conv_lhs => unfold tryRunTaskPrios
  rw [h]

theorem tryRunTaskPrios_cons_of_work {fuel th p hint : Nat} {s : SchedState}
    (ps : List Nat)
    (hwork : getPipe s p th ≠ [] ∨ specFirstPeer s p th hint ≠ none) :
    tryRunTaskPrios fuel th (p :: ps) hint s = TryRunTaskPrio fuel s th p hint := by
  conv_lhs => unfold tryRunTaskPrios
  cases hattempt : TryRunTaskPrio fuel s th p hint with
  | none => rfl
  | some r =>
    obtain ⟨b2, h2, s2⟩ := r
    have hb : b2 = true := (tryRunTaskPrio_iff hattempt).mpr hwork
    subst hb
    rfl

theorem tryRunTaskPrios_skip :
    ∀ (qs ps : List Nat) (fuel th hint : Nat) (s : SchedState),
      (∀ q ∈ qs, getPinned s q th = [] ∧ getPipe s q th = [] ∧
        specFirstPeer s q th hint = none) →
      tryRunTaskPrios fuel th (qs ++ ps) hint s = tryRunTaskPrios fuel th ps hint s
  | [], ps, fuel, th, hint, s, _ => rfl
  | q :: qs, ps, fuel, th, hint, s, hall => by
    rw [List.cons_append]
    obtain ⟨hp, ho, hf⟩ := hall q (List.mem_cons_self _ _)
    rw [tryRunTaskPrios_cons_false (qs ++ ps) (tryRunTaskPrio_noWork hp ho hf)]
    exact tryRunTaskPrios_skip qs ps fuel th hint s
      (fun x hx => hall x (List.mem_cons_of_mem _ hx))

/-- Claim C7 (confirmed): the two-level dispatch order of `TryRunTask`.
First conjunct, single priority: the worker's pinned tasks at this priority
are always drained, and their execution events come first; if the own pipe is
non-empty the attempt succeeds from it with the hint untouched; the attempt
succeeds iff the own pipe or some peer pipe has work; and when it steals, the
source is exactly the first non-empty peer pipe at indices
`(hint + k) % numThreads`, `k` ascending, skipping the worker itself — that
peer loses its oldest element.  Second conjunct, all priorities: priorities
are visited in ascending order from 0, so if everything below `p` is empty
(and no pinned tasks are pending) while `p` has work, the whole-`TryRunTask`
call equals the single-priority attempt at `p`. -/
theorem c7_dispatch_order :
    (∀ (fuel : Nat) (s : SchedState) (th p hint : Nat) (b : Bool) (h' : Nat)
       (s' : SchedState), TryRunTaskPrio fuel s th p hint = some (b, h', s') →
       getPinned s' p th = [] ∧
       (∃ rest, s'.events =
         s.events ++ pinnedDrainTrace th ((getPinned s p th).reverse) ++ rest) ∧
       (getPipe s p th ≠ [] → b = true ∧ h' = hint) ∧
       (b = true ↔ (getPipe s p th ≠ [] ∨ specFirstPeer s p th hint ≠ none)) ∧
       (getPipe s p th = [] → b = true →
         specFirstPeer s p th hint = some h' ∧ h' ≠ th ∧
         ∃ x, getPipe s p h' = getPipe s' p h' ++ [x])) ∧
    (∀ (fuel : Nat) (s : SchedState) (th hint p : Nat),
       (∀ q, getPinned s q th = []) → p < s.numPriorities →
       (∀ q, q < p → getPipe s q th = [] ∧ specFirstPeer s q th hint = none) →
       (getPipe s p th ≠ [] ∨ specFirstPeer s p th hint ≠ none) →
       TryRunTaskAll fuel s th hint = TryRunTaskPrio fuel s th p hint) := by
  constructor
  · intro fuel s th p hint b h' s' h
    obtain ⟨_, hpin, _, hev⟩ := tryRunTaskPrio_frame h
    refine ⟨hpin, hev, ?_, tryRunTaskPrio_iff h, ?_⟩
    · intro hown
      exact tryRunTaskPrio_own hown h
    · intro hown hb
      subst hb
      obtain ⟨k1, k2, k3⟩ := tryRunTaskPrio_peer hown h
      exact ⟨k1, k2, k3⟩
  · intro fuel s th hint p hpin hp hlow hwork
    unfold TryRunTaskAll
    obtain ⟨k, hk⟩ : ∃ k, s.numPriorities = p + (k + 1) :=
      ⟨s.numPriorities - p - 1, by omega⟩
    rw [hk, List.range_add]
    have hmap : (List.range (k + 1)).map (p + ·) =
        p :: (List.range k).map (fun i => p + (i + 1)) := by
      rw [List.range_succ_eq_map]
      simp [List.map_map]
    rw [hmap]
    rw [tryRunTaskPrios_skip (List.range p) _ fuel th hint s
      (fun q hq => by
        have hq' := List.mem_range.mp hq
        exact ⟨hpin q, (hlow q hq').1, (hlow q hq').2⟩)]
    exact tryRunTaskPrios_cons_of_work _ hwork

/-- Claim C9, amended (the hint is updated only when the task came from a
peer's pipe): on a failed attempt the hint is unchanged; when the own pipe
serves the task the hint is also unchanged (not set to the own index); when a
peer pipe serves it, the hint becomes that peer's index. -/
theorem c9_hint_update :
    ∀ (fuel : Nat) (s : SchedState) (th p hint : Nat) (b : Bool) (h' : Nat)
      (s' : SchedState),
      TryRunTaskPrio fuel s th p hint = some (b, h', s') →
      (b = false → h' = hint) ∧
      (getPipe s p th ≠ [] → h' = hint) ∧
      (getPipe s p th = [] → b = true →
        specFirstPeer s p th hint = some h' ∧ h' ≠ th) := by
  intro fuel s th p hint b h' s' h
  refine ⟨?_, ?_, ?_⟩
  · intro hb
    subst hb
    exact (tryRunTaskPrio_false h).1
  · intro hown
    exact (tryRunTaskPrio_own hown h).2
  · intro hown hb
    subst hb
    obtain ⟨k1, k2, _⟩ := tryRunTaskPrio_peer hown h
    exact ⟨k1, k2⟩

/-- Counterexample for C9 as stated: on `c9State` the own pipe (pipe index
0) yields the task, yet the hint stays at its incoming value 1 ≠ 0 — the
hint is not "updated to the index of the pipe that yielded that work". -/
theorem c9_counterexample :
    TryRunTaskPrio 0 c9State 0 0 1 = some (true, 1, c9Post) ∧ (1 : Nat) ≠ 0 := by
  constructor
  · decide
  · decide

/-- Witness for the amended C9 at the concrete own-pipe-serves state. -/
theorem c9_hint_update_witness :
    ((true = false → 1 = 1) ∧
     (getPipe c9State 0 0 ≠ [] → 1 = 1) ∧
     (getPipe c9State 0 0 = [] → true = true →
       specFirstPeer c9State 0 0 1 = some 1 ∧ 1 ≠ 0)) :=
  c9_hint_update 0 c9State 0 0 1 true 1 c9Post (by decide)

/-- Witness for C7: the single-priority conjunct at the concrete steal state
`c7bState` (own pipe empty, peer pipe 1 serves), and the ascending conjunct
at `c7State` (priority 0 empty, priority 1 has own work). -/
theorem c7_dispatch_order_witness :
    (getPinned c7bPost 0 0 = [] ∧
     (∃ rest, c7bPost.events =
       c7bState.events ++ pinnedDrainTrace 0 ((getPinned c7bState 0 0).reverse) ++ rest) ∧
     (getPipe c7bState 0 0 ≠ [] → true = true ∧ 1 = 0) ∧
     (true = true ↔ (getPipe c7bState 0 0 ≠ [] ∨ specFirstPeer c7bState 0 0 0 ≠ none)) ∧
     (getPipe c7bState 0 0 = [] → true = true →
       specFirstPeer c7bState 0 0 0 = some 1 ∧ 1 ≠ 0 ∧
       ∃ x, getPipe c7bState 0 1 = getPipe c7bPost 0 1 ++ [x])) ∧
    TryRunTaskAll 0 c7State 0 1 = TryRunTaskPrio 0 c7State 0 1 1 := by
  constructor
  · exact c7_dispatch_order.1 0 c7bState 0 0 0 true 1 c7bPost (by decide)
  · refine c7_dispatch_order.2 0 c7State 0 1 1 ?_ (by decide) ?_ ?_
    · intro q
      match q with
      | 0 => rfl
      | 1 => rfl
      | n + 2 => rfl
    · intro q hq
      have hq0 : q = 0 := by omega
      subst hq0
      exact ⟨by decide, by decide⟩
    · exact Or.inl (by decide)

/-! ## Claims C5 and C8 about `AddTaskSetToPipe` -/

theorem rangeToRun_set_field (x : SchedState) (tid : Nat) (v : Nat) :
    (getTask { x with
        tasks := x.tasks.set tid ({ getTask x tid with rangeToRun := v }) }
      tid).rangeToRun
    = if tid < x.tasks.length then v else 0 := by
  unfold getTask
  dsimp only
  rw [listGetD_set]
  split
  · rfl
  · rfl

/-- Claim C5 (confirmed): `AddTaskSetToPipe` sets
`m_RangeToRun = max(set_size / m_NumPartitions, min_range)` and the coarse
chunk to `max(set_size / m_NumInitialPartitions, min_range)` (integer
division), so `m_RangeToRun ≥ min_range` whenever `set_size ≥ min_range`
(indeed unconditionally).  The last conjunct reads the value back from the
post state of a completed `AddTaskSetToPipe` call. -/
theorem c5_partition_sizes :
    (∀ (s : SchedState) (t : TaskData),
      rangeToRunOf s t = max (t.setSize / s.numPartitions) t.minRange ∧
      rangeToSplitOf s t = max (t.setSize / s.numInitialPartitions) t.minRange ∧
      (t.minRange ≤ t.setSize → t.minRange ≤ rangeToRunOf s t)) ∧
    (∀ (fuel th tid : Nat) (s s' : SchedState),
      AddTaskSetToPipe fuel th tid s = some s' →
      (getTask s' tid).rangeToRun =
        max ((getTask s tid).setSize / s.numPartitions) (getTask s tid).minRange) := by
  constructor
  · intro s t
    refine ⟨?_, ?_, ?_⟩
    · unfold rangeToRunOf
      dsimp only
      split <;> omega
    · unfold rangeToSplitOf
      dsimp only
      split <;> omega
    · intro _
      unfold rangeToRunOf
      dsimp only
      split <;> omega
  · intro fuel th tid s s' h
    unfold AddTaskSetToPipe SplitAndAddTask at h
    dsimp only at h
    have hpres := (splitAndAddLoop_preserves _ _ _ _ _ _ h).2.1 tid
    rw [shape_rangeToRun hpres, rangeToRun_set_field]
    have hlen : (setRunning s tid 0 .relaxed).tasks.length = s.tasks.length := by
      unfold setRunning
      dsimp only
      exact List.length_set ..
    rw [hlen]
    split
    · unfold rangeToRunOf
      dsimp only
      split <;> omega
    · have hdef : getTask s tid = defaultTask :=
        List.getD_eq_default _ _ (by omega)
      rw [hdef]
      simp [defaultTask]

/-- Claim C8 (confirmed): submitting a TaskSet with `set_size = 0` completes
immediately — the pipes are untouched (no subtask enqueued), the only emitted
events are the relaxed store of 0 to `m_RunningCount` and the final
`WakeThreads` (so no `ExecuteRange` is called and no increment of
`m_RunningCount` ever happens: the count never exceeds 0 during or after the
call), and the final `m_RunningCount` is 0.  This holds for every fuel, i.e.
the call returns immediately. -/
theorem c8_empty_taskset :
    ∀ (fuel th tid : Nat) (s : SchedState),
      (getTask s tid).setSize = 0 →
      ∃ s', AddTaskSetToPipe fuel th tid s = some s' ∧
        s'.pipes = s.pipes ∧
        s'.events = (s.events ++ [.storeRunning tid 0 .relaxed]) ++
          ([.wakeCall] ++ if s.numThreadsWaiting ≠ 0 then [.notifyAll] else []) ∧
        (getTask s' tid).runningCount = 0 := by
  intro fuel th tid s hsz
  unfold AddTaskSetToPipe SplitAndAddTask
  dsimp only
  rw [hsz]
  rw [splitAndAddLoop_done _ _ _ _ _ rfl]
  refine ⟨_, rfl, rfl, rfl, ?_⟩
  show (getTask { (setRunning s tid 0 .relaxed) with
      tasks := (setRunning s tid 0 .relaxed).tasks.set tid
        ({ getTask (setRunning s tid 0 .relaxed) tid with
            rangeToRun := rangeToRunOf s (getTask s tid) }) } tid).runningCount
    = 0
  unfold getTask setRunning
  dsimp only
  rw [listGetD_set]
  rw [List.length_set]
  split
  · next hlen =>
    rw [listGetD_set, if_pos hlen]
  · rfl

/-- Witness for C5 at the concrete `c5State` submission. -/
theorem c5_partition_sizes_witness :
    (rangeToRunOf c5State (getTask c5State 0) =
      max ((getTask c5State 0).setSize / c5State.numPartitions)
        (getTask c5State 0).minRange) ∧
    ((getTask c5State 0).minRange ≤ rangeToRunOf c5State (getTask c5State 0)) ∧
    ((getTask c5Post 0).rangeToRun =
      max ((getTask c5State 0).setSize / c5State.numPartitions)
        (getTask c5State 0).minRange) :=
  ⟨(c5_partition_sizes.1 c5State (getTask c5State 0)).1,
   (c5_partition_sizes.1 c5State (getTask c5State 0)).2.2 (by decide),
   c5_partition_sizes.2 2 0 0 c5State c5Post (by decide)⟩

/-- Witness for C8 at the concrete `c8State` submission. -/
theorem c8_empty_taskset_witness :
    c8Post.pipes = c8State.pipes ∧
    c8Post.events = (c8State.events ++ [.storeRunning 0 0 .relaxed]) ++
      ([.wakeCall] ++ if c8State.numThreadsWaiting ≠ 0 then [.notifyAll] else []) ∧
    (getTask c8Post 0).runningCount = 0 := by
  obtain ⟨s', h1, h2, h3, h4⟩ := c8_empty_taskset 0 0 0 c8State (by decide)
  have hcalc : AddTaskSetToPipe 0 0 0 c8State = some c8Post := by decide
  rw [hcalc] at h1
  have hs : s' = c8Post := by
    cases h1
    rfl
  subst hs
  exact ⟨h2, h3, h4⟩

/-! ## Claim C2: the failed-write branch of `SplitAndAddTask` -/

/-- Claim C2, amended (the wake fires already when at least ONE piece was
enqueued since the last failure — the code's `numAdded > 1` counts the
currently failed piece): when `WriterTryWriteFront` fails (full pipe) and
`m_RangeToRun < rangeToSplit_`, the iteration propagates no failure — the
pipes are untouched and `m_RunningCount` is net unchanged (the acquire
increment is paired with a release decrement); it emits `WakeThreads` iff
`acc.numAdded + 1 > 1`, sets the piece's length to `m_RangeToRun`, returns
the cut-off remainder to the pending subtask, executes the piece inline on
the submitting worker, and decrements `m_RunningCount` with release ordering
afterwards (see the trace order). -/
theorem c2_inline_on_full_pipe :
    ∀ (th chunk : Nat) (s : SchedState) (acc : SAAcc) (tid a b : Nat),
      acc.sub = ⟨tid, ⟨a, b⟩⟩ → a ≠ b → tid < s.tasks.length →
      ¬ pipeWriteOk s (getPipe s (getTask s tid).priority th) →
      (getTask s tid).rangeToRun < chunk →
      (splitAndAddStep th chunk s acc).1.pipes = s.pipes ∧
      (splitAndAddStep th chunk s acc).1.tasks = s.tasks ∧
      (splitAndAddStep th chunk s acc).1.events = s.events ++
        ([Event.addRunning tid 1 .acquire] ++
         (if acc.numAdded + 1 > 1 then
            [Event.wakeCall] ++
              (if s.numThreadsWaiting ≠ 0 then [Event.notifyAll] else [])
          else []) ++
         [Event.execRange tid a ((a + (getTask s tid).rangeToRun) % U32) th,
          Event.addRunning tid (-1) .release]) ∧
      (splitAndAddStep th chunk s acc).2 =
        ⟨⟨tid, ⟨(a + (getTask s tid).rangeToRun) % U32, b⟩⟩, 0⟩ := by
  intro th chunk s acc tid a b hsub hab hlen hfull htrim
  have hprio : (getTask (fetchAddRunning s tid 1 .acquire) tid).priority
      = (getTask s tid).priority :=
    shape_priority (taskShape_fetchAddRunning s tid 1 .acquire tid)
  have hnotok : ¬ pipeWriteOk (fetchAddRunning s tid 1 .acquire)
      (getPipe (fetchAddRunning s tid 1 .acquire)
        (getTask (fetchAddRunning s tid 1 .acquire) tid).priority th) := by
    rw [getPipe_eq_of_pipes_eq (pipes_fetchAddRunning s tid 1 .acquire), hprio]
    exact hfull
  have hrtr2 : (getTask (if acc.numAdded + 1 > 1
      then WakeThreads (fetchAddRunning s tid 1 .acquire)
      else fetchAddRunning s tid 1 .acquire) tid).rangeToRun
      = (getTask s tid).rangeToRun := by
    split
    · rw [getTask_WakeThreads]
      exact shape_rangeToRun (taskShape_fetchAddRunning s tid 1 .acquire tid)
    · exact shape_rangeToRun (taskShape_fetchAddRunning s tid 1 .acquire tid)
  have htasksField : ∀ x : SchedState,
      x.tasks = (fetchAddRunning s tid 1 .acquire).tasks →
      ∀ es : List Event,
      (fetchAddRunning (pushEvents x es) tid (-1) .release).tasks = s.tasks := by
    intro x hx es
    unfold fetchAddRunning pushEvents
    dsimp only
    unfold getTask
    dsimp only
    rw [hx]
    rw [show (fetchAddRunning s tid 1 .acquire).tasks
      = s.tasks.set tid ({ getTask s tid with
          runningCount := (getTask s tid).runningCount + 1 }) from rfl]
    rw [List.set_set, listGetD_set, if_pos hlen]
    dsimp only
    rw [show (getTask s tid).runningCount + 1 + (-1) = (getTask s tid).runningCount
      from by omega]
    conv_rhs => rw [← listSet_getD_self s.tasks tid defaultTask]
    rfl
  unfold splitAndAddStep SplitTask
  rw [hsub]
  dsimp only
  rw [if_neg hnotok]
  dsimp only
  rw [hrtr2, if_pos htrim]
  dsimp only
  refine ⟨?_, ?_, ?_, ?_⟩
  · split <;> rfl
  · exact htasksField _ (by split <;> rfl) _
  · split <;>
      simp [WakeThreads, pushEvents, fetchAddRunning, List.append_assoc]
  · rfl

set_option maxRecDepth 4000 in
/-- Counterexample for C2 as stated: in the `c2State` run exactly ONE piece
(`[0,33)`, the single enqueue event in the trace) has been enqueued when the
second write fails, yet `WakeThreads` fires (the `wakeCall` at index 3 of
the trace, before the inline `ExecuteRange` at index 4) — the code wakes
when `numAdded > 1` where `numAdded` also counts the failed piece, i.e.
already when one piece (not "more than one") was enqueued since the last
failure. -/
theorem c2_counterexample :
    (SplitAndAddTask 2 0 c2Sub 33 c2State).map SchedState.events = some c2Trace ∧
    (c2Trace.filter isEnqueueEvt).length = 1 ∧
    c2Trace.getD 3 .notifyAll = .wakeCall ∧
    c2Trace.getD 4 .notifyAll = .execRange 0 33 66 0 :=
  ⟨by decide, by decide, by decide, by decide⟩

/-- Witness for the amended C2 at the concrete full-pipe state `c2wState`
with one piece already enqueued (`numAdded = 1`). -/
theorem c2_inline_on_full_pipe_witness :
    (splitAndAddStep 0 7 c2wState c2wAcc).1.pipes = c2wState.pipes ∧
    (splitAndAddStep 0 7 c2wState c2wAcc).1.tasks = c2wState.tasks ∧
    (splitAndAddStep 0 7 c2wState c2wAcc).1.events = c2wState.events ++
      ([Event.addRunning 0 1 .acquire] ++
       (if c2wAcc.numAdded + 1 > 1 then
          [Event.wakeCall] ++
            (if c2wState.numThreadsWaiting ≠ 0 then [Event.notifyAll] else [])
        else []) ++
       [Event.execRange 0 5 ((5 + (getTask c2wState 0).rangeToRun) % U32) 0,
        Event.addRunning 0 (-1) .release]) ∧
    (splitAndAddStep 0 7 c2wState c2wAcc).2 =
      ⟨⟨0, ⟨(5 + (getTask c2wState 0).rangeToRun) % U32, 20⟩⟩, 0⟩ :=
  c2_inline_on_full_pipe 0 7 c2wState c2wAcc 0 5 20 (by decide) (by decide)
    (by decide) (by decide) (by decide)

/-! ## Claim C6: precondition checking -/

/-- Claim C6, amended (only `Initialize(0)` is met with an assert/halt; the
other two precondition violations are unchecked): `Initialize(0)` halts at
the assert (modelled `none`) and any non-zero count proceeds;
`AddPinnedTask` performs its store/wake unconditionally — its trace and the
`m_RunningCount = 1` store happen for every `threadNum`, in range or not
(there is no range check in the source); and `AddTaskSetToPipe` never
inspects the prior `m_RunningCount` — its result is unchanged if the task is
still outstanding (the count is silently reset to 0), so reuse is not
detected. -/
theorem c6_precondition_checks :
    (∀ s : SchedState, InitializeSched 0 s = none) ∧
    (∀ (n : Nat) (s : SchedState), n ≠ 0 → (InitializeSched n s).isSome) ∧
    (∀ (s : SchedState) (tid : Nat), (AddPinnedTask s tid).events = s.events ++
      ([Event.storeRunning tid 1 .seqcst] ++
       ([Event.wakeCall] ++
        if s.numThreadsWaiting ≠ 0 then [Event.notifyAll] else []))) ∧
    (∀ (s : SchedState) (tid : Nat), tid < s.tasks.length →
      (getTask (AddPinnedTask s tid) tid).runningCount = 1) ∧
    (∀ (fuel th tid : Nat) (c : Int) (s : SchedState),
      AddTaskSetToPipe fuel th tid s = AddTaskSetToPipe fuel th tid
        { s with
          tasks := s.tasks.set tid ({ getTask s tid with runningCount := c }) }) := by
  refine ⟨?_, ?_, ?_, ?_, ?_⟩
  · intro s
    rfl
  · intro n s hn
    unfold InitializeSched
    rw [if_neg hn]
    rfl
  · intro s tid
    simp [AddPinnedTask, WakeThreads, pushEvents, setPinned, setRunning,
      List.append_assoc]
  · intro s tid hlen
    show (getTask (setRunning s tid 1 .seqcst) tid).runningCount = 1
    unfold getTask setRunning
    dsimp only
    rw [listGetD_set, if_pos hlen]
  · intro fuel th tid c s
    by_cases hlen : tid < s.tasks.length
    · have hget : getTask { s with
            tasks := s.tasks.set tid ({ getTask s tid with runningCount := c }) }
          tid
          = { getTask s tid with runningCount := c } := by
        unfold getTask
        dsimp only
        rw [listGetD_set, if_pos hlen]
      have hs1 : setRunning { s with
            tasks := s.tasks.set tid ({ getTask s tid with runningCount := c }) }
          tid 0 .relaxed
          = setRunning s tid 0 .relaxed := by
        unfold setRunning
        dsimp only
        rw [hget]
        congr 1
        rw [List.set_set]
      unfold AddTaskSetToPipe
      dsimp only
      rw [hget, hs1]
      rfl
    · have hset : s.tasks.set tid ({ getTask s tid with runningCount := c })
          = s.tasks := listSet_ge _ _ _ (by omega)
      rw [hset]

/-- Counterexample for C6 as stated: `AddPinnedTask` with `threadNum = 5` on
a 2-thread scheduler (out of range) is NOT met with an assert/halt — the
call completes normally, storing `m_RunningCount = 1` and waking threads;
likewise `AddTaskSetToPipe` on a task with `m_RunningCount = 7` still
outstanding proceeds normally.  Only `Initialize(0)` halts. -/
theorem c6_counterexample :
    c6State.numThreads ≤ (getTask c6State 0).threadNum ∧
    AddPinnedTask c6State 0 =
      { c6State with
        tasks := [{ c6Task with runningCount := 1 }],
        events := [.storeRunning 0 1 .seqcst, .wakeCall] } ∧
    (0 : Int) < (getTask c6ReuseState 0).runningCount ∧
    (AddTaskSetToPipe 1 0 0 c6ReuseState).isSome = true ∧
    InitializeSched 0 c6State = none :=
  ⟨by decide, by decide, by decide, by decide, by decide⟩

/-- Witness for the amended C6 at concrete inputs. -/
theorem c6_precondition_checks_witness :
    InitializeSched 0 c6State = none ∧
    (InitializeSched 2 c6State).isSome ∧
    (AddPinnedTask c6State 0).events = c6State.events ++
      ([Event.storeRunning 0 1 .seqcst] ++
       ([Event.wakeCall] ++
        if c6State.numThreadsWaiting ≠ 0 then [Event.notifyAll] else [])) ∧
    (getTask (AddPinnedTask c6State 0) 0).runningCount = 1 ∧
    AddTaskSetToPipe 1 0 0 c6ReuseState = AddTaskSetToPipe 1 0 0
      { c6ReuseState with
        tasks := c6ReuseState.tasks.set 0
          ({ getTask c6ReuseState 0 with runningCount := 0 }) } :=
  ⟨c6_precondition_checks.1 c6State,
   c6_precondition_checks.2.1 2 c6State (by decide),
   c6_precondition_checks.2.2.1 c6State 0,
   c6_precondition_checks.2.2.2.1 c6State 0 (by decide),
   c6_precondition_checks.2.2.2.2 1 0 0 0 c6ReuseState⟩

/-! ## Claim C10: termination of the `SplitAndAddTask` loop -/

/-- Shared characterisation of the failed-write, trimmed iteration of
`TaskScheduler::SplitAndAddTask` (TaskScheduler.cpp:377-391): when
`WriterTryWriteFront` fails and `m_RangeToRun < rangeToSplit_`, the pipes
are untouched and the loop-local subtask becomes the cut-off remainder
`[(start + m_RangeToRun) mod 2^32, end)` with `numAdded` reset to 0. -/
theorem splitAndAddStep_fail_trim (th chunk : Nat) (s : SchedState) (acc : SAAcc)
    (tid a b : Nat) (hsub : acc.sub = ⟨tid, ⟨a, b⟩⟩)
    (hfull : ¬ pipeWriteOk s (getPipe s (getTask s tid).priority th))
    (htrim : (getTask s tid).rangeToRun < chunk) :
    (splitAndAddStep th chunk s acc).1.pipes = s.pipes ∧
    (splitAndAddStep th chunk s acc).2 =
      ⟨⟨tid, ⟨(a + (getTask s tid).rangeToRun) % U32, b⟩⟩, 0⟩ := by
  have hprio : (getTask (fetchAddRunning s tid 1 .acquire) tid).priority
      = (getTask s tid).priority :=
    shape_priority (taskShape_fetchAddRunning s tid 1 .acquire tid)
  have hnotok : ¬ pipeWriteOk (fetchAddRunning s tid 1 .acquire)
      (getPipe (fetchAddRunning s tid 1 .acquire)
        (getTask (fetchAddRunning s tid 1 .acquire) tid).priority th) := by
    rw [getPipe_eq_of_pipes_eq (pipes_fetchAddRunning s tid 1 .acquire), hprio]
    exact hfull
  have hrtr2 : (getTask (if acc.numAdded + 1 > 1
      then WakeThreads (fetchAddRunning s tid 1 .acquire)
      else fetchAddRunning s tid 1 .acquire) tid).rangeToRun
      = (getTask s tid).rangeToRun := by
    split
    · rw [getTask_WakeThreads]
      exact shape_rangeToRun (taskShape_fetchAddRunning s tid 1 .acquire tid)
    · exact shape_rangeToRun (taskShape_fetchAddRunning s tid 1 .acquire tid)
  unfold splitAndAddStep SplitTask
  rw [hsub]
  dsimp only
  rw [if_neg hnotok]
  dsimp only
  rw [hrtr2, if_pos htrim]
  dsimp only
  exact ⟨by split <;> rfl, rfl⟩

theorem scalars_pipeCapacity {s s' : SchedState} (h : scalars s' = scalars s) :
    s'.pipeCapacity = s.pipeCapacity := by
  simp only [scalars, Prod.mk.injEq] at h
  exact h.2.2.1

set_option maxRecDepth 4000 in
/-- Counterexample for C10 as stated: `rangeToSplit_ = 2 ≥ 1` on the
non-empty range `[0, 6)`, yet `SplitAndAddTask` never terminates on
`c10State` — `m_RangeToRun = 0` with a full pipe makes every iteration trim
the carved piece to zero length and hand the whole range back, so the
remaining range never shrinks. -/
theorem c10_counterexample :
    c10Sub.partition.start < c10Sub.partition.endIdx ∧
    (1 : Nat) ≤ 2 ∧
    ¬ SATerminates 0 c10Sub 2 c10State := by
  have hstep : ∀ (s : SchedState) (acc : SAAcc),
      (acc.sub = c10Sub ∧ (getPipe s 0 0).length = 256 ∧
        s.pipeCapacity = 256 ∧ (getTask s 0).rangeToRun = 0 ∧
        (getTask s 0).priority = 0) →
      acc.sub.partition.start ≠ acc.sub.partition.endIdx ∧
      ((splitAndAddStep 0 2 s acc).2.sub = c10Sub ∧
        (getPipe (splitAndAddStep 0 2 s acc).1 0 0).length = 256 ∧
        (splitAndAddStep 0 2 s acc).1.pipeCapacity = 256 ∧
        (getTask (splitAndAddStep 0 2 s acc).1 0).rangeToRun = 0 ∧
        (getTask (splitAndAddStep 0 2 s acc).1 0).priority = 0) := by
    rintro s acc ⟨h1, h2, h3, h4, h5⟩
    have hfull : ¬ pipeWriteOk s (getPipe s (getTask s 0).priority 0) := by
      rw [h5]
      unfold pipeWriteOk
      omega
    obtain ⟨hpipes, hacc⟩ := splitAndAddStep_fail_trim 0 2 s acc 0 0 6
      (h1.trans rfl) hfull (by omega)
    have hshape := taskShape_splitAndAddStep 0 2 s acc 0
    have hscal := scalars_splitAndAddStep 0 2 s acc
    refine ⟨by rw [h1]; decide, ?_, ?_, ?_, ?_, ?_⟩
    · rw [hacc]
      dsimp only
      rw [h4]
      rfl
    · rw [getPipe_eq_of_pipes_eq hpipes]
      exact h2
    · rw [scalars_pipeCapacity hscal]
      exact h3
    · rw [shape_rangeToRun hshape]
      exact h4
    · rw [shape_priority hshape]
      exact h5
  have hinit : (⟨c10Sub, 0⟩ : SAAcc).sub = c10Sub ∧
      (getPipe c10State 0 0).length = 256 ∧
      c10State.pipeCapacity = 256 ∧ (getTask c10State 0).rangeToRun = 0 ∧
      (getTask c10State 0).priority = 0 := by
    refine ⟨rfl, ?_, rfl, rfl, rfl⟩
    rw [show getPipe c10State 0 0 = List.replicate 256 dummySub from rfl]
    simp
  refine ⟨by decide, by decide, ?_⟩
  rintro ⟨fuel, hsome⟩
  have hnone := splitAndAddLoop_none_of 0 2
    (fun s acc => acc.sub = c10Sub ∧ (getPipe s 0 0).length = 256 ∧
      s.pipeCapacity = 256 ∧ (getTask s 0).rangeToRun = 0 ∧
      (getTask s 0).priority = 0)
    hstep fuel c10State ⟨c10Sub, 0⟩ hinit
  rw [show SplitAndAddTask fuel 0 c10Sub 2 c10State
      = splitAndAddLoop 0 2 fuel c10State ⟨c10Sub, 0⟩ from rfl] at hsome
  rw [hnone] at hsome
  simp at hsome

/-- Claim C10, amended: with `rangeToSplit_ = 0` the loop indeed never exits
(every carve is empty and the trim cannot fire, so the remaining range never
shrinks) — but `rangeToSplit_ ≥ 1` alone does not guarantee termination (see
the counterexample); it does when additionally
`rangeToSplit_ ≤ m_RangeToRun`, so the full-pipe trim never cuts past the
carved piece, and the range is well-formed (`start ≤ end < 2^32`): then every
iteration removes `min(rangeToSplit_, remaining) ≥ 1` items. -/
theorem c10_termination :
    (∀ (th : Nat) (sub : SubTaskSet) (s : SchedState),
      sub.partition.start < U32 →
      sub.partition.start ≠ sub.partition.endIdx →
      ¬ SATerminates th sub 0 s) ∧
    (∀ (th chunk : Nat) (sub : SubTaskSet) (s : SchedState),
      1 ≤ chunk → chunk ≤ (getTask s sub.pTask).rangeToRun →
      sub.partition.start ≤ sub.partition.endIdx →
      sub.partition.endIdx < U32 →
      SATerminates th sub chunk s) := by
  constructor
  · intro th sub s hlt hne
    rintro ⟨fuel, hsome⟩
    have hstep : ∀ (s' : SchedState) (acc : SAAcc), acc.sub = sub →
        acc.sub.partition.start ≠ acc.sub.partition.endIdx ∧
        (splitAndAddStep th 0 s' acc).2.sub = sub := by
      intro s' acc h1
      refine ⟨by rw [h1]; exact hne, ?_⟩
      rw [splitAndAddStep_sub_chunk0 th s' acc (by rw [h1]; exact hlt), h1]
    have hnone := splitAndAddLoop_none_of th 0 (fun _ acc => acc.sub = sub)
      hstep fuel s ⟨sub, 0⟩ rfl
    rw [show SplitAndAddTask fuel th sub 0 s
        = splitAndAddLoop th 0 fuel s ⟨sub, 0⟩ from rfl] at hsome
    rw [hnone] at hsome
    simp at hsome
  · intro th chunk sub s hc hr hab hb
    exact ⟨sub.partition.endIdx - sub.partition.start,
      splitAndAddLoop_isSome _ th chunk s ⟨sub, 0⟩ hc hr hab hb (le_refl _)⟩

/-- Witness for the amended C10 at concrete inputs: the zero chunk never
terminates on `c10State`; chunk 3 with `m_RangeToRun = 5` terminates on
`w10State`. -/
theorem c10_termination_witness :
    ¬ SATerminates 0 c10Sub 0 c10State ∧ SATerminates 0 c10Sub 3 w10State :=
  ⟨c10_termination.1 0 c10Sub c10State (by decide) (by decide),
   c10_termination.2 0 3 c10Sub w10State (by decide) (by decide) (by decide)
     (by decide)⟩

/-! ## Claim C1: exact cover of `[0, set_size)` -/

set_option maxRecDepth 4000 in
/-- Claim C1 (code_bug): on the failing input `c1State` (4 threads,
`set_size = 100`, `min_range = 1`, coarse chunk 33, `m_RangeToRun = 8`, the
submitter's priority-0 pipe pre-filled to 253 of its 256 slots) the claimed
exact cover of `[0, set_size)` fails: when the 4th piece's
`WriterTryWriteFront` fails, the trim sets `piece.end = start + m_RangeToRun`
unconditionally, so the submitter executes `[99, 107)` inline — past
`set_size = 100`, so indices 100-106 are executed though outside the set —
and the remaining range becomes the uint32-wrapped `[107, 100)`, on which
the loop never exits: `AddTaskSetToPipe` returns `none` at every fuel
(after the first 4 iterations, recorded by `c1Mid`, the loop state satisfies
the invariant `start ≡ 3 (mod 8) ∧ end = 100 ∧ pipe full`, which the step
preserves and which forces the loop condition forever). -/
theorem c1_exact_cover_violated :
    (∀ fuel, AddTaskSetToPipe fuel 0 0 c1State = none) ∧
    Event.execRange 0 99 107 0 ∈ c1Mid.1.events ∧
    (getTask c1State 0).setSize = 100 ∧
    (∀ f, AddTaskSetToPipe (f + 4) 0 0 c1State
      = splitAndAddLoop 0 33 f c1Mid.1 c1Mid.2) := by
  have hs0 : splitAndAddStep 0 33 (c1Steps 0).1 (c1Steps 0).2 = c1Steps 1 := rfl
  have hs1 : splitAndAddStep 0 33 (c1Steps 1).1 (c1Steps 1).2 = c1Steps 2 := rfl
  have hs2 : splitAndAddStep 0 33 (c1Steps 2).1 (c1Steps 2).2 = c1Steps 3 := rfl
  have hs3 : splitAndAddStep 0 33 (c1Steps 3).1 (c1Steps 3).2 = c1Mid := rfl
  have hne0 : (c1Steps 0).2.sub.partition.start ≠ (c1Steps 0).2.sub.partition.endIdx := by
    decide
  have hne1 : (c1Steps 1).2.sub.partition.start ≠ (c1Steps 1).2.sub.partition.endIdx := by
    decide
  have hne2 : (c1Steps 2).2.sub.partition.start ≠ (c1Steps 2).2.sub.partition.endIdx := by
    decide
  have hne3 : (c1Steps 3).2.sub.partition.start ≠ (c1Steps 3).2.sub.partition.endIdx := by
    decide
  have hconn : ∀ f, AddTaskSetToPipe (f + 4) 0 0 c1State
      = splitAndAddLoop 0 33 f c1Mid.1 c1Mid.2 := by
    intro f
    show splitAndAddLoop 0 33 (f + 3 + 1) (c1Steps 0).1 (c1Steps 0).2
      = splitAndAddLoop 0 33 f c1Mid.1 c1Mid.2
    rw [splitAndAddLoop_unfold 0 33 (f + 3) (c1Steps 0).1 (c1Steps 0).2 hne0, hs0]
    show splitAndAddLoop 0 33 (f + 2 + 1) (c1Steps 1).1 (c1Steps 1).2
      = splitAndAddLoop 0 33 f c1Mid.1 c1Mid.2
    rw [splitAndAddLoop_unfold 0 33 (f + 2) (c1Steps 1).1 (c1Steps 1).2 hne1, hs1]
    show splitAndAddLoop 0 33 (f + 1 + 1) (c1Steps 2).1 (c1Steps 2).2
      = splitAndAddLoop 0 33 f c1Mid.1 c1Mid.2
    rw [splitAndAddLoop_unfold 0 33 (f + 1) (c1Steps 2).1 (c1Steps 2).2 hne2, hs2]
    rw [splitAndAddLoop_unfold 0 33 f (c1Steps 3).1 (c1Steps 3).2 hne3, hs3]
  have hstep : ∀ (s : SchedState) (acc : SAAcc),
      (acc.sub.pTask = 0 ∧ acc.sub.partition.endIdx = 100 ∧
        acc.sub.partition.start % 8 = 3 ∧ acc.sub.partition.start < U32 ∧
        (getPipe s 0 0).length = 256 ∧ s.pipeCapacity = 256 ∧
        (getTask s 0).rangeToRun = 8 ∧ (getTask s 0).priority = 0) →
      acc.sub.partition.start ≠ acc.sub.partition.endIdx ∧
      ((splitAndAddStep 0 33 s acc).2.sub.pTask = 0 ∧
        (splitAndAddStep 0 33 s acc).2.sub.partition.endIdx = 100 ∧
        (splitAndAddStep 0 33 s acc).2.sub.partition.start % 8 = 3 ∧
        (splitAndAddStep 0 33 s acc).2.sub.partition.start < U32 ∧
        (getPipe (splitAndAddStep 0 33 s acc).1 0 0).length = 256 ∧
        (splitAndAddStep 0 33 s acc).1.pipeCapacity = 256 ∧
        (getTask (splitAndAddStep 0 33 s acc).1 0).rangeToRun = 8 ∧
        (getTask (splitAndAddStep 0 33 s acc).1 0).priority = 0) := by
    rintro s acc ⟨hpt, hend, hm8, hlt, hlen, hcap, hrtr, hprio⟩
    have hne : acc.sub.partition.start ≠ acc.sub.partition.endIdx := by
      rw [hend]
      omega
    have hsub : acc.sub = ⟨0, ⟨acc.sub.partition.start, 100⟩⟩ := by
      have h : acc.sub
          = ⟨acc.sub.pTask, ⟨acc.sub.partition.start, acc.sub.partition.endIdx⟩⟩ := rfl
      rw [hpt, hend] at h
      exact h
    have hfull : ¬ pipeWriteOk s (getPipe s (getTask s 0).priority 0) := by
      rw [hprio]
      unfold pipeWriteOk
      omega
    obtain ⟨hpipes, hacc⟩ := splitAndAddStep_fail_trim 0 33 s acc 0
      acc.sub.partition.start 100 hsub hfull (by omega)
    have hshape := taskShape_splitAndAddStep 0 33 s acc 0
    have hscal := scalars_splitAndAddStep 0 33 s acc
    refine ⟨hne, ?_, ?_, ?_, ?_, ?_, ?_, ?_, ?_⟩
    · rw [hacc]
    · rw [hacc]
    · rw [hacc]
      dsimp only
      rw [hrtr]
      simp only [U32]
      simp only [U32] at hm8
      omega
    · rw [hacc]
      dsimp only
      simp only [U32]
      omega
    · rw [getPipe_eq_of_pipes_eq hpipes]
      exact hlen
    · rw [scalars_pipeCapacity hscal]
      exact hcap
    · rw [shape_rangeToRun hshape]
      exact hrtr
    · rw [shape_priority hshape]
      exact hprio
  have hbase : c1Mid.2.sub.pTask = 0 ∧ c1Mid.2.sub.partition.endIdx = 100 ∧
      c1Mid.2.sub.partition.start % 8 = 3 ∧ c1Mid.2.sub.partition.start < U32 ∧
      (getPipe c1Mid.1 0 0).length = 256 ∧ c1Mid.1.pipeCapacity = 256 ∧
      (getTask c1Mid.1 0).rangeToRun = 8 ∧ (getTask c1Mid.1 0).priority = 0 :=
    ⟨by decide, by decide, by decide, by decide, by decide, by decide,
     by decide, by decide⟩
  have hmid : ∀ f, splitAndAddLoop 0 33 f c1Mid.1 c1Mid.2 = none := fun f =>
    splitAndAddLoop_none_of 0 33
      (fun s acc => acc.sub.pTask = 0 ∧ acc.sub.partition.endIdx = 100 ∧
        acc.sub.partition.start % 8 = 3 ∧ acc.sub.partition.start < U32 ∧
        (getPipe s 0 0).length = 256 ∧ s.pipeCapacity = 256 ∧
        (getTask s 0).rangeToRun = 8 ∧ (getTask s 0).priority = 0)
      hstep f c1Mid.1 c1Mid.2 hbase
  refine ⟨?_, by decide, by decide, hconn⟩
  intro fuel
  rcases Nat.lt_or_ge fuel 4 with h | h
  · interval_cases fuel <;> rfl
  · obtain ⟨f, rfl⟩ : ∃ f, fuel = f + 4 := ⟨fuel - 4, by omega⟩
    rw [hconn f, hmid f]

/-! ## Claim C3: the lost wake-up -/

/-- Claim C3 (code_bug): the lost wake-up IS possible.  Under the
sequentially-consistent interleaving `lostWakeSchedule` — the waiter
increments `m_NumThreadsWaiting` and scans an empty pipe; the producer then
enqueues and runs `WakeThreads` (its `notify_all` finds no blocked thread and
is lost, since a condition variable does not remember notifications); the
waiter then blocks — the final state has work enqueued (`pipeCount = 1`) yet
the waiter blocked, and both threads are stuck: every further schedule
leaves the state unchanged, so the waiter is blocked forever.  The code's
check order (increment, scan, then `m_NewTaskEvent.wait` without re-checking
under the same mutex as the producer's signal) does not close the window
between the scan and the block. -/
theorem c3_lost_wakeup :
    lostWakeFinal.pipeCount = 1 ∧
    lostWakeFinal.blocked = true ∧
    lostWakeFinal.wpc = WaiterPC.blockedPC ∧
    lostWakeFinal.ppc = ProducerPC.doneP ∧
    waiterStep lostWakeFinal = lostWakeFinal ∧
    producerStep lostWakeFinal = lostWakeFinal ∧
    (∀ cs : List Bool, runSchedule lostWakeFinal cs = lostWakeFinal) := by
  have hw : waiterStep lostWakeFinal = lostWakeFinal := by decide
  have hp : producerStep lostWakeFinal = lostWakeFinal := by decide
  refine ⟨by decide, by decide, by decide, by decide, hw, hp, ?_⟩
  intro cs
  induction cs with
  | nil => rfl
  | cons c cs ih =>
    cases c
    · show runSchedule (waiterStep lostWakeFinal) cs = lostWakeFinal
      rw [hw]
      exact ih
    · show runSchedule (producerStep lostWakeFinal) cs = lostWakeFinal
      rw [hp]
      exact ih

end Enki
